import Mathlib

/-!
Verification of the quantum-PQC source auditor.

The Rust sources are embedded shallowly: source text and lines are lists of
characters, machine integers (u32/usize) are naturals (the quantities involved
-- risk scores, counts, byte lengths -- never overflow 2^32 on the inputs the
program admits, and Rust's saturating_sub is Nat truncated subtraction),
fallible entry points return Except.  Rust string offsets are byte offsets;
here they are character indices, which coincide on ASCII text (every concrete
input used below is ASCII).  The regex patterns of src/audit.rs are embedded
as executable predicates over character lists; each definition's comment names
the regex it models and justifies the translation.
-/

set_option autoImplicit false

namespace PQC

/-- ASCII model of Rust's char::is_whitespace (the Unicode White_Space
characters that occur in ASCII). Models the predicate used by str::trim. -/
def isRustWs (c : Char) : Bool :=
  c = ' ' || c = '\t' || c = '\n' || c = '\r' || c = '\x0b' || c = '\x0c'

/-- Model of Rust str::trim: remove leading and trailing whitespace. -/
def trim (l : List Char) : List Char :=
  ((l.dropWhile isRustWs).reverse.dropWhile isRustWs).reverse

/-- Model of Rust str::len: the UTF-8 byte length of the text. -/
def utf8Len (l : List Char) : Nat :=
  (l.map Char.utf8Size).sum

/-- Remove one trailing carriage return, as Rust str::lines does on each line. -/
def stripCR (l : List Char) : List Char :=
  match l.reverse with
  | '\r' :: rest => rest.reverse
  | _ => l

/-- Worker for rustLines: cur holds the current line's characters in reverse.
At a newline the line so far is emitted; if the newline ends the input no
further (empty) line follows, matching Rust's str::lines. -/
def rustLinesGo (cur : List Char) : List Char → List (List Char)
  | [] => [stripCR cur.reverse]
  | c :: rest =>
    if c = '\n' then
      stripCR cur.reverse ::
        (match rest with
         | [] => []
         | _ :: _ => rustLinesGo [] rest)
    else rustLinesGo (c :: cur) rest

/-- Model of Rust str::lines: split at newline characters; a final trailing
newline does not produce an extra empty line; the empty string has no lines;
each line has a single trailing carriage return removed. -/
def rustLines (l : List Char) : List (List Char) :=
  match l with
  | [] => []
  | _ :: _ => rustLinesGo [] l

/-- Case-sensitive: pat is a prefix of l. -/
def startsWithCS : List Char → List Char → Bool
  | _, [] => true
  | [], _ :: _ => false
  | c :: cs, p :: ps => c = p && startsWithCS cs ps

/-- Case-insensitive (ASCII folding): pat, given in lowercase, is a prefix of l
up to Char.toLower.  Models an (?i) literal in the regex crate on ASCII text. -/
def startsWithCI : List Char → List Char → Bool
  | _, [] => true
  | [], _ :: _ => false
  | c :: cs, p :: ps => c.toLower = p && startsWithCI cs ps

/-- Index of the first case-sensitive occurrence of pat in l.
Models Rust str::find with a string pattern (char-index form). -/
def findSub : List Char → List Char → Option Nat
  | l, pat =>
    if startsWithCS l pat then some 0
    else
      match l with
      | [] => none
      | _ :: rest => (findSub rest pat).map (· + 1)

/-- Index of the first case-insensitive occurrence of pat (pat lowercase). -/
def findCI : List Char → List Char → Option Nat
  | l, pat =>
    if startsWithCI l pat then some 0
    else
      match l with
      | [] => none
      | _ :: rest => (findCI rest pat).map (· + 1)

/-- l contains pat as a substring, case-insensitively. -/
def containsCI (l pat : List Char) : Bool :=
  (findCI l pat).isSome

/-- l contains the given patterns in order with arbitrary gaps: models an
unanchored regex match of p1.*p2.*...  (existence of a match is equivalent to
first-occurrence chaining, since the earliest occurrence of each piece leaves
the longest suffix for the rest). -/
def seqContainsCI (l : List Char) : List (List Char) → Bool
  | [] => true
  | p :: ps =>
    match findCI l p with
    | none => false
    | some i => seqContainsCI (l.drop (i + p.length)) ps

/-- Decimal digit characters of n, most significant first; models the Display
rendering of an unsigned integer in Rust format strings. -/
def natChars (n : Nat) : List Char :=
  if n < 10 then [Nat.digitChar n]
  else natChars (n / 10) ++ [Nat.digitChar (n % 10)]
decreasing_by
  exact Nat.div_lt_self (by omega) (by omega)

/-- Supported programming languages (src/types.rs, enum Language). -/
inductive Language where
  | Rust | JavaScript | TypeScript | Python | Java | Go | Cpp | Csharp
deriving DecidableEq, Fintype

/-- Language::from_string (src/types.rs): lowercase the tag, then match the
canonical names and short aliases. -/
def Language.from_string (s : List Char) : Option Language :=
  let t := s.map Char.toLower
  if t = "rust".toList ∨ t = "rs".toList then some .Rust
  else if t = "javascript".toList ∨ t = "js".toList then some .JavaScript
  else if t = "typescript".toList ∨ t = "ts".toList then some .TypeScript
  else if t = "python".toList ∨ t = "py".toList then some .Python
  else if t = "java".toList then some .Java
  else if t = "go".toList ∨ t = "golang".toList then some .Go
  else if t = "cpp".toList ∨ t = "c++".toList ∨ t = "cxx".toList then some .Cpp
  else if t = "csharp".toList ∨ t = "cs".toList ∨ t = "c#".toList then some .Csharp
  else none

/-- Severity levels (src/types.rs), ordered Low < Medium < High < Critical. -/
inductive Severity where
  | Low | Medium | High | Critical
deriving DecidableEq, Fintype

/-- Types of cryptographic algorithms detected (src/types.rs, enum CryptoType). -/
inductive CryptoType where
  | Rsa | Ecdsa | Ecdh | Dsa | DiffieHellman | Sha1 | Md5 | Des | TripleDes | Rc4
deriving DecidableEq, Fintype

/-- Display impl for CryptoType (src/types.rs). -/
def cryptoName : CryptoType → List Char
  | .Rsa => "RSA".toList
  | .Ecdsa => "ECDSA".toList
  | .Ecdh => "ECDH".toList
  | .Dsa => "DSA".toList
  | .DiffieHellman => "Diffie-Hellman".toList
  | .Sha1 => "SHA-1".toList
  | .Md5 => "MD5".toList
  | .Des => "DES".toList
  | .TripleDes => "3DES".toList
  | .Rc4 => "RC4".toList

/-- Individual vulnerability finding (src/types.rs, struct Vulnerability). -/
structure Vulnerability where
  crypto_type : CryptoType
  severity : Severity
  risk_score : Nat
  line : Nat
  column : Nat
  context : List Char
  message : List Char
  recommendation : List Char
  key_size : Option Nat
deriving DecidableEq

/-- Audit statistics (src/types.rs, struct AuditStats). -/
structure AuditStats where
  total_vulnerabilities : Nat
  critical_count : Nat
  high_count : Nat
  medium_count : Nat
  low_count : Nat
  lines_scanned : Nat
deriving DecidableEq

/-- Complete audit result (src/types.rs, struct AuditResult). -/
structure AuditResult where
  vulnerabilities : List Vulnerability
  risk_score : Nat
  language : Language
  recommendations : List (List Char)
  stats : AuditStats
deriving DecidableEq

/-- AuditResult::new (src/types.rs). -/
def AuditResult.new (language : Language) (lines_scanned : Nat) : AuditResult :=
  { vulnerabilities := []
    risk_score := 0
    language := language
    recommendations := []
    stats :=
      { total_vulnerabilities := 0
        critical_count := 0
        high_count := 0
        medium_count := 0
        low_count := 0
        lines_scanned := lines_scanned } }

/-- AuditResult::add_vulnerability (src/types.rs): bump the count of the
finding's severity and the total, then push the finding. -/
def AuditResult.add_vulnerability (r : AuditResult) (v : Vulnerability) : AuditResult :=
  let stats :=
    match v.severity with
    | .Critical => { r.stats with critical_count := r.stats.critical_count + 1 }
    | .High => { r.stats with high_count := r.stats.high_count + 1 }
    | .Medium => { r.stats with medium_count := r.stats.medium_count + 1 }
    | .Low => { r.stats with low_count := r.stats.low_count + 1 }
  { r with
    stats := { stats with total_vulnerabilities := stats.total_vulnerabilities + 1 }
    vulnerabilities := r.vulnerabilities ++ [v] }

/-- AuditResult::calculate_risk_score (src/types.rs): overall risk is the
integer mean of the finding scores, 0 when there are no findings. -/
def AuditResult.calculate_risk_score (r : AuditResult) : AuditResult :=
  if r.vulnerabilities.isEmpty then { r with risk_score := 0 }
  else
    { r with
      risk_score := (r.vulnerabilities.map (·.risk_score)).sum / r.vulnerabilities.length }

/-- AuditResult::generate_recommendations (src/types.rs). -/
def AuditResult.generate_recommendations (r : AuditResult) : AuditResult :=
  let recs := r.recommendations
  let recs :=
    if r.stats.critical_count > 0 then
      recs ++ ["CRITICAL: Immediately migrate to quantum-safe algorithms (CRYSTALS-Kyber, CRYSTALS-Dilithium)".toList]
    else recs
  let recs :=
    if r.stats.high_count > 0 then
      recs ++ ["HIGH PRIORITY: Plan migration to post-quantum cryptography within 6-12 months".toList]
    else recs
  let has_rsa := r.vulnerabilities.any (fun v => v.crypto_type == CryptoType.Rsa)
  let has_ecdsa := r.vulnerabilities.any (fun v => v.crypto_type == CryptoType.Ecdsa)
  let has_dh := r.vulnerabilities.any (fun v => v.crypto_type == CryptoType.DiffieHellman)
  let recs :=
    if has_rsa then
      recs ++ ["Replace RSA with CRYSTALS-Dilithium for digital signatures or CRYSTALS-Kyber for encryption".toList]
    else recs
  let recs :=
    if has_ecdsa then
      recs ++ ["Replace ECDSA/ECDH with CRYSTALS-Dilithium (signatures) or CRYSTALS-Kyber (key exchange)".toList]
    else recs
  let recs :=
    if has_dh then
      recs ++ ["Replace Diffie-Hellman key exchange with CRYSTALS-Kyber or NTRU".toList]
    else recs
  let recs :=
    recs ++ ["Follow NIST Post-Quantum Cryptography Standardization guidelines: https://csrc.nist.gov/projects/post-quantum-cryptography".toList]
  { r with recommendations := recs }

/-- Audit errors (src/audit.rs, enum AuditError). -/
inductive AuditError where
  | unsupportedLanguage (tag : List Char)
  | invalidSource
  | sourceTooLarge (actual limit : Nat)
  | tooManyLines (actual limit : Nat)
  | parseError (msg : List Char)
deriving DecidableEq

instance {ε α : Type} [DecidableEq ε] [DecidableEq α] : DecidableEq (Except ε α) := fun x y =>
  match x, y with
  | .ok a, .ok b =>
    if h : a = b then isTrue (by rw [h]) else isFalse (fun he => h (Except.ok.inj he))
  | .error a, .error b =>
    if h : a = b then isTrue (by rw [h]) else isFalse (fun he => h (Except.error.inj he))
  | .ok _, .error _ => isFalse (fun he => Except.noConfusion he)
  | .error _, .ok _ => isFalse (fun he => Except.noConfusion he)

/-- MAX_SOURCE_SIZE (src/audit.rs): 10 MiB. -/
def MAX_SOURCE_SIZE : Nat := 10 * 1024 * 1024

/-- MAX_LINES (src/audit.rs). -/
def MAX_LINES : Nat := 500000

/-- RSA_PATTERN (src/audit.rs): matches iff the regex
(?i)(RSA|Rsa|rsa)[^a-zA-Z]*([\d]{3,4})?|(generate.*rsa.*key|rsa.*keygen)
matches somewhere in the line.  The first alternative's tail is nullable, so it
matches exactly where a case-insensitive "rsa" occurs; the second alternative
is the two keygen phrases with gaps. -/
def RSA_PATTERN_isMatch (l : List Char) : Bool :=
  containsCI l "rsa".toList
  || seqContainsCI l ["generate".toList, "rsa".toList, "key".toList]
  || seqContainsCI l ["rsa".toList, "keygen".toList]

/-- RSA_KEYGEN (src/audit.rs): the regex
(?i)(RSA\.generate|generateKeyPair.*RSA|KeyPairGenerator\.getInstance.*RSA|rsa\.GenerateKey). -/
def RSA_KEYGEN_isMatch (l : List Char) : Bool :=
  containsCI l "rsa.generate".toList
  || seqContainsCI l ["generatekeypair".toList, "rsa".toList]
  || seqContainsCI l ["keypairgenerator.getinstance".toList, "rsa".toList]
  || containsCI l "rsa.generatekey".toList

/-- The size alternation of RSA_KEY_SIZE with the numeric value of each branch
(u32::from_str never fails on these literals). -/
def rsaSizeAlternatives : List (List Char × Nat) :=
  [("512".toList, 512), ("1024".toList, 1024), ("2048".toList, 2048),
   ("3072".toList, 3072), ("4096".toList, 4096), ("8192".toList, 8192)]

/-- One attempt of RSA_KEY_SIZE, (?i)(?:rsa|RSA)[^0-9]*(512|1024|2048|3072|4096|8192),
at the start of l: consume "rsa" (3 chars), greedily skip non-digits (the
class excludes digits and every size alternative begins with one, so
backtracking cannot help), then take the first size alternative that is a
prefix of the remaining text. -/
def rsaKeySizeAt (l : List Char) : Option Nat :=
  if startsWithCI l "rsa".toList then
    let afterSkip := (l.drop 3).dropWhile (fun c => !c.isDigit)
    ((rsaSizeAlternatives.find? (fun pv => startsWithCS afterSkip pv.1)).map (·.2))
  else none

/-- RSA_KEY_SIZE capture group 1 as a number: the regex crate scans for the
leftmost match start, so try each start position in order. -/
def rsaKeySizeCapture : List Char → Option Nat
  | [] => none
  | c :: rest =>
    match rsaKeySizeAt (c :: rest) with
    | some v => some v
    | none => rsaKeySizeCapture rest

/-- ECDSA_PATTERN (src/audit.rs):
(?i)(ECDSA|ECC|elliptic.*curve|secp256k1|secp384r1|prime256v1|P-256|P-384|P-521). -/
def ECDSA_PATTERN_isMatch (l : List Char) : Bool :=
  containsCI l "ecdsa".toList
  || containsCI l "ecc".toList
  || seqContainsCI l ["elliptic".toList, "curve".toList]
  || containsCI l "secp256k1".toList
  || containsCI l "secp384r1".toList
  || containsCI l "prime256v1".toList
  || containsCI l "p-256".toList
  || containsCI l "p-384".toList
  || containsCI l "p-521".toList

/-- ECDH_PATTERN (src/audit.rs): (?i)(ECDH|ecdh|elliptic.*diffie|curve25519). -/
def ECDH_PATTERN_isMatch (l : List Char) : Bool :=
  containsCI l "ecdh".toList
  || seqContainsCI l ["elliptic".toList, "diffie".toList]
  || containsCI l "curve25519".toList

/-- DSA_PATTERN (src/audit.rs): (?i)(DSA|dsa)[^a-zA-Z]|(Digital.*Signature.*Algorithm).
The class [^a-zA-Z] must consume a character, so "dsa" at end of line does not
match the first alternative. -/
def DSA_PATTERN_isMatch (l : List Char) : Bool :=
  (l.tails.any fun suf =>
    startsWithCI suf "dsa".toList &&
      (match suf.drop 3 with
       | c :: _ => !c.isAlpha
       | [] => false))
  || seqContainsCI l ["digital".toList, "signature".toList, "algorithm".toList]

/-- DH_PATTERN (src/audit.rs): (?i)(diffie.*hellman|DH_|DHE|DHE_). -/
def DH_PATTERN_isMatch (l : List Char) : Bool :=
  seqContainsCI l ["diffie".toList, "hellman".toList]
  || containsCI l "dh_".toList
  || containsCI l "dhe".toList
  || containsCI l "dhe_".toList

/-- SHA1_PATTERN (src/audit.rs): (?i)(SHA1|sha1|SHA-1|sha-1)[^0-9].
The class [^0-9] must consume a character after the name. -/
def SHA1_PATTERN_isMatch (l : List Char) : Bool :=
  l.tails.any fun suf =>
    (startsWithCI suf "sha1".toList &&
      (match suf.drop 4 with
       | c :: _ => !c.isDigit
       | [] => false))
    || (startsWithCI suf "sha-1".toList &&
      (match suf.drop 5 with
       | c :: _ => !c.isDigit
       | [] => false))

/-- MD5_PATTERN (src/audit.rs): (?i)(MD5|md5). -/
def MD5_PATTERN_isMatch (l : List Char) : Bool :=
  containsCI l "md5".toList

/-- ASCII model of the regex word class \w used by the \b boundary. -/
def isWordChar (c : Char) : Bool :=
  c.isAlphanum || c = '_'

/-- The word-boundary alternative \bDES\b of DES_PATTERN: a case-insensitive
"des" preceded and followed by a non-word character or the line edge. -/
def desWordMatch (l : List Char) : Bool :=
  (List.range l.length).any fun i =>
    startsWithCI (l.drop i) "des".toList
    && (i == 0 ||
        (match l[i-1]? with
         | some c => !isWordChar c
         | none => true))
    && (match l[i+3]? with
        | some c => !isWordChar c
        | none => true)

/-- DES_PATTERN (src/audit.rs): (?i)(DES_|_DES|\.DES|DES\.|\bDES\b). -/
def DES_PATTERN_isMatch (l : List Char) : Bool :=
  containsCI l "des_".toList
  || containsCI l "_des".toList
  || containsCI l ".des".toList
  || containsCI l "des.".toList
  || desWordMatch l

/-- TRIPLE_DES_PATTERN (src/audit.rs): (?i)(3DES|TripleDES|DESede). -/
def TRIPLE_DES_PATTERN_isMatch (l : List Char) : Bool :=
  containsCI l "3des".toList
  || containsCI l "tripledes".toList
  || containsCI l "desede".toList

/-- RC4_PATTERN (src/audit.rs): (?i)(RC4|rc4|ARCFOUR). -/
def RC4_PATTERN_isMatch (l : List Char) : Bool :=
  containsCI l "rc4".toList
  || containsCI l "arcfour".toList

/-- detect_rsa (src/audit.rs): guard on RSA_PATTERN or RSA_KEYGEN, extract the
key size via RSA_KEY_SIZE, grade by key size, column = first character whose
lowercase form is the letter r (the code's heuristic scan), context = trimmed
line. -/
def detect_rsa (line : List Char) (line_num : Nat) : Option Vulnerability :=
  if !RSA_PATTERN_isMatch line && !RSA_KEYGEN_isMatch line then none
  else
    let key_size := rsaKeySizeCapture line
    let svm : Severity × Nat × List Char :=
      match key_size with
      | some size =>
        if size < 2048 then
          (.Critical, 100,
            "RSA with ".toList ++ natChars size ++ "-bit key is critically vulnerable to quantum attacks".toList)
        else if size < 4096 then
          (.High, 85,
            "RSA with ".toList ++ natChars size ++ "-bit key will be vulnerable to quantum computers".toList)
        else
          (.High, 80,
            "RSA with ".toList ++ natChars size ++ "-bit key is quantum-vulnerable (Shor's algorithm)".toList)
      | none =>
        (.High, 85, "RSA detected - vulnerable to quantum attacks via Shor's algorithm".toList)
    some
      { crypto_type := .Rsa
        severity := svm.1
        risk_score := svm.2.1
        line := line_num
        column := (line.findIdx? (fun c => c.toLower == 'r')).getD 0
        context := trim line
        message := svm.2.2
        recommendation := "Replace with CRYSTALS-Dilithium (signatures) or CRYSTALS-Kyber (encryption)".toList
        key_size := key_size }

/-- detect_ecdsa (src/audit.rs). -/
def detect_ecdsa (line : List Char) (line_num : Nat) : Option Vulnerability :=
  if !ECDSA_PATTERN_isMatch line then none
  else
    some
      { crypto_type := .Ecdsa
        severity := .High
        risk_score := 85
        line := line_num
        column := (line.findIdx? (fun c => ("ECDSA".toList).contains c.toUpper)).getD 0
        context := trim line
        message := "ECDSA (Elliptic Curve Digital Signature Algorithm) is quantum-vulnerable".toList
        recommendation := "Replace with CRYSTALS-Dilithium or SPHINCS+ for post-quantum signatures".toList
        key_size := none }

/-- detect_ecdh (src/audit.rs). -/
def detect_ecdh (line : List Char) (line_num : Nat) : Option Vulnerability :=
  if !ECDH_PATTERN_isMatch line then none
  else
    some
      { crypto_type := .Ecdh
        severity := .High
        risk_score := 85
        line := line_num
        column := (line.findIdx? (fun c => ("ECDH".toList).contains c.toUpper)).getD 0
        context := trim line
        message := "ECDH (Elliptic Curve Diffie-Hellman) is quantum-vulnerable".toList
        recommendation := "Replace with CRYSTALS-Kyber or NTRU for quantum-safe key exchange".toList
        key_size := none }

/-- detect_dsa (src/audit.rs). -/
def detect_dsa (line : List Char) (line_num : Nat) : Option Vulnerability :=
  if !DSA_PATTERN_isMatch line then none
  else
    some
      { crypto_type := .Dsa
        severity := .High
        risk_score := 90
        line := line_num
        column := ((findSub line "DSA".toList).orElse (fun _ => findSub line "dsa".toList)).getD 0
        context := trim line
        message := "DSA (Digital Signature Algorithm) is quantum-vulnerable".toList
        recommendation := "Replace with CRYSTALS-Dilithium for post-quantum digital signatures".toList
        key_size := none }

/-- detect_diffie_hellman (src/audit.rs). -/
def detect_diffie_hellman (line : List Char) (line_num : Nat) : Option Vulnerability :=
  if !DH_PATTERN_isMatch line then none
  else
    some
      { crypto_type := .DiffieHellman
        severity := .High
        risk_score := 85
        line := line_num
        column := ((findSub line "diffie".toList).orElse (fun _ => findSub line "DH".toList)).getD 0
        context := trim line
        message := "Diffie-Hellman key exchange is quantum-vulnerable".toList
        recommendation := "Replace with CRYSTALS-Kyber or FrodoKEM for quantum-safe key encapsulation".toList
        key_size := none }

/-- detect_sha1 (src/audit.rs). -/
def detect_sha1 (line : List Char) (line_num : Nat) : Option Vulnerability :=
  if !SHA1_PATTERN_isMatch line then none
  else
    some
      { crypto_type := .Sha1
        severity := .Critical
        risk_score := 95
        line := line_num
        column := ((findSub line "SHA1".toList).orElse (fun _ => findSub line "sha1".toList)).getD 0
        context := trim line
        message := "SHA-1 is cryptographically broken and should not be used".toList
        recommendation := "Replace with SHA-256, SHA-384, or SHA-512".toList
        key_size := none }

/-- detect_md5 (src/audit.rs). -/
def detect_md5 (line : List Char) (line_num : Nat) : Option Vulnerability :=
  if !MD5_PATTERN_isMatch line then none
  else
    some
      { crypto_type := .Md5
        severity := .Critical
        risk_score := 100
        line := line_num
        column := ((findSub line "MD5".toList).orElse (fun _ => findSub line "md5".toList)).getD 0
        context := trim line
        message := "MD5 is cryptographically broken and must not be used".toList
        recommendation := "Replace with SHA-256 or SHA-3".toList
        key_size := none }

/-- detect_des (src/audit.rs). -/
def detect_des (line : List Char) (line_num : Nat) : Option Vulnerability :=
  if !DES_PATTERN_isMatch line then none
  else
    some
      { crypto_type := .Des
        severity := .Critical
        risk_score := 95
        line := line_num
        column := ((findSub line "DES".toList).orElse (fun _ => findSub line "des".toList)).getD 0
        context := trim line
        message := "DES is obsolete and cryptographically weak".toList
        recommendation := "Replace with AES-256 or ChaCha20".toList
        key_size := none }

/-- detect_triple_des (src/audit.rs). -/
def detect_triple_des (line : List Char) (line_num : Nat) : Option Vulnerability :=
  if !TRIPLE_DES_PATTERN_isMatch line then none
  else
    some
      { crypto_type := .TripleDes
        severity := .High
        risk_score := 80
        line := line_num
        column := ((findSub line "3DES".toList).orElse (fun _ => findSub line "TripleDES".toList)).getD 0
        context := trim line
        message := "3DES (Triple DES) is deprecated and should be replaced".toList
        recommendation := "Replace with AES-256 or ChaCha20-Poly1305".toList
        key_size := none }

/-- detect_rc4 (src/audit.rs). -/
def detect_rc4 (line : List Char) (line_num : Nat) : Option Vulnerability :=
  if !RC4_PATTERN_isMatch line then none
  else
    some
      { crypto_type := .Rc4
        severity := .Critical
        risk_score := 95
        line := line_num
        column := ((findSub line "RC4".toList).orElse (fun _ => findSub line "rc4".toList)).getD 0
        context := trim line
        message := "RC4 is cryptographically broken and must not be used".toList
        recommendation := "Replace with AES-GCM or ChaCha20-Poly1305".toList
        key_size := none }

/-- score_vulnerability (src/audit.rs): the separate scoring table.  Note the
wildcard arm returns 80 for RSA both when the size is at least 4096 and when
no size was captured. -/
def score_vulnerability (crypto_type : CryptoType) (key_size : Option Nat) : Nat :=
  match crypto_type with
  | .Rsa =>
    match key_size with
    | some size =>
      if size < 1024 then 100
      else if size < 2048 then 100
      else if size < 4096 then 85
      else 80
    | none => 80
  | .Ecdsa => 85
  | .Ecdh => 85
  | .Dsa => 90
  | .DiffieHellman => 85
  | .Sha1 => 95
  | .Md5 => 100
  | .Des => 95
  | .TripleDes => 80
  | .Rc4 => 95

/-- The ten detectors in the order analyze runs them on each line. -/
def detectorList : List (List Char → Nat → Option Vulnerability) :=
  [detect_rsa, detect_ecdsa, detect_ecdh, detect_dsa, detect_diffie_hellman,
   detect_sha1, detect_md5, detect_des, detect_triple_des, detect_rc4]

/-- One line of the scan loop of analyze (src/audit.rs): the ten sequential
conditional add_vulnerability calls, i.e. adding every detector hit in order. -/
def scanLine (r : AuditResult) (line : List Char) (line_num : Nat) : AuditResult :=
  (detectorList.filterMap (fun d => d line line_num)).foldl AuditResult.add_vulnerability r

/-- analyze (src/audit.rs): parse the language, reject empty-after-trim
sources, then oversized sources, then sources with too many lines; scan each
line with every detector; compute the aggregate risk score and the
recommendations. -/
def analyze (source : List Char) (language : List Char) : Except AuditError AuditResult :=
  match Language.from_string language with
  | none => .error (.unsupportedLanguage language)
  | some lang =>
    if (trim source).isEmpty then .error .invalidSource
    else
      let source_size := utf8Len source
      if source_size > MAX_SOURCE_SIZE then .error (.sourceTooLarge source_size MAX_SOURCE_SIZE)
      else
        let lines := rustLines source
        let line_count := lines.length
        if line_count > MAX_LINES then .error (.tooManyLines line_count MAX_LINES)
        else
          let scanned :=
            lines.enum.foldl (fun r p => scanLine r p.2 (p.1 + 1))
              (AuditResult.new lang line_count)
          .ok (scanned.calculate_risk_score.generate_recommendations)

/-- Append a name unless it is already present: the repeated
"if !list.contains(&x) { list.push(x) }" idiom of the summary loops. -/
def pushNew {α : Type} [DecidableEq α] (acc : List α) (a : α) : List α :=
  if a ∈ acc then acc else acc ++ [a]

/-- The quantum-vulnerable side of the CryptoType match used by the summary
generators and the penalty score (RSA/ECDSA/ECDH/DSA/DH vs. the hash/cipher
side SHA1/MD5/DES/3DES/RC4). -/
def isQuantumVulnerableType (ct : CryptoType) : Bool :=
  match ct with
  | .Rsa | .Ecdsa | .Ecdh | .Dsa | .DiffieHellman => true
  | .Sha1 | .Md5 | .Des | .TripleDes | .Rc4 => false

/-- The weak-key-size label: the Rust format string "{} {}-bit" applied to the
algorithm name and the key size. -/
def keyInfo (name : List Char) (ks : Nat) : List Char :=
  name ++ ' ' :: (natChars ks ++ "-bit".toList)

/-- Assessment summary (src/types.rs, struct AssessmentSummary). -/
structure AssessmentSummary where
  files_scanned : Nat
  lines_scanned : Nat
  total_vulnerabilities : Nat
  quantum_vulnerable_algorithms : List (List Char)
  deprecated_algorithms : List (List Char)
  weak_key_sizes : List (List Char)
  compliance_score : Nat
  risk_score : Nat
deriving DecidableEq

/-- One iteration of the categorisation loop of generate_summary
(src/compliance.rs): state is (quantum_vulnerable, deprecated, weak_keys). -/
def summaryStep (st : List (List Char) × List (List Char) × List (List Char))
    (v : Vulnerability) : List (List Char) × List (List Char) × List (List Char) :=
  let name := cryptoName v.crypto_type
  let qv := if isQuantumVulnerableType v.crypto_type then pushNew st.1 name else st.1
  let dep := if isQuantumVulnerableType v.crypto_type then st.2.1 else pushNew st.2.1 name
  let weak :=
    match v.key_size with
    | some ks => if ks < 2048 then pushNew st.2.2 (keyInfo name ks) else st.2.2
    | none => st.2.2
  (qv, dep, weak)

/-- generate_summary (src/compliance.rs): categorise the findings, then the
Framework-A compliance score: 100 when the aggregate risk is 0, otherwise
100 minus the aggregate risk (u32 subtraction; the aggregate risk of a scanned
file never exceeds 100, see the theorems below, so Nat subtraction is exact). -/
def generate_summary (r : AuditResult) : AssessmentSummary :=
  let lists := r.vulnerabilities.foldl summaryStep ([], [], [])
  { files_scanned := 1
    lines_scanned := r.stats.lines_scanned
    total_vulnerabilities := r.stats.total_vulnerabilities
    quantum_vulnerable_algorithms := lists.1
    deprecated_algorithms := lists.2.1
    weak_key_sizes := lists.2.2
    compliance_score := if r.risk_score = 0 then 100 else 100 - r.risk_score
    risk_score := r.risk_score }

/-- CCCS approval status (src/types.rs, enum CCCSApprovalStatus). -/
inductive CCCSApprovalStatus where
  | Approved | ConditionallyApproved | Deprecated | Prohibited | UnderReview
deriving DecidableEq, Fintype

/-- Canadian security classification levels (src/types.rs). -/
inductive SecurityClassification where
  | Unclassified | ProtectedA | ProtectedB | ProtectedC
deriving DecidableEq, Fintype

/-- Modelled from the spec: get_cccs_status (src/algorithm_database.rs) looks
the primitive up in the embedded dataset data/cccs_algorithms.json, which is
not under src/.  Spec section 8 fixes: MD5, SHA-1, DES, RC4 are always
Prohibited; 3DES and DSA are always Deprecated.  The four quantum-vulnerable
public-key families (RSA, ECDSA, ECDH, DH) are conditionally approved: the
approval-conditions interface of the database exists exactly for these four
and the Canadian finding text describes them as conditionally approved for
legacy systems. -/
def get_cccs_status : CryptoType → CCCSApprovalStatus
  | .Md5 | .Sha1 | .Des | .Rc4 => .Prohibited
  | .TripleDes | .Dsa => .Deprecated
  | .Rsa | .Ecdsa | .Ecdh | .DiffieHellman => .ConditionallyApproved

/-- is_cccs_prohibited (src/algorithm_database.rs). -/
def is_cccs_prohibited (ct : CryptoType) : Bool :=
  get_cccs_status ct == CCCSApprovalStatus.Prohibited

/-- is_cccs_deprecated (src/algorithm_database.rs). -/
def is_cccs_deprecated (ct : CryptoType) : Bool :=
  get_cccs_status ct == CCCSApprovalStatus.Deprecated

/-- Modelled from the spec: the per-classification minimum RSA key size of the
embedded dataset (not under src/).  The spec fixes only that the minimums are
non-decreasing in sensitivity; the repository's tests pin Protected A at 2048
and accept 4096 at Protected C. -/
def minimum_rsa_key_size : SecurityClassification → Nat
  | .Unclassified => 2048
  | .ProtectedA => 2048
  | .ProtectedB => 3072
  | .ProtectedC => 4096

/-- Modelled from the spec: the per-classification minimum ECC key size of the
embedded dataset (not under src/); non-decreasing in sensitivity. -/
def minimum_ecc_key_size : SecurityClassification → Nat
  | .Unclassified => 256
  | .ProtectedA => 256
  | .ProtectedB => 384
  | .ProtectedC => 521

/-- validate_key_size (src/algorithm_database.rs): RSA against the minimum RSA
size, ECDSA and ECDH against the minimum ECC size, every other primitive
passes.  The modelled dataset has a requirements row for every classification
level, so the missing-row false branch of the Rust code is unreachable. -/
def validate_key_size (ct : CryptoType) (ks : Nat) (cl : SecurityClassification) : Bool :=
  match ct with
  | .Rsa => decide (minimum_rsa_key_size cl ≤ ks)
  | .Ecdsa => decide (minimum_ecc_key_size cl ≤ ks)
  | .Ecdh => decide (minimum_ecc_key_size cl ≤ ks)
  | _ => true

/-- Modelled from the spec: get_approved_algorithms projects the embedded
dataset (not under src/) onto the approved rows meeting the classification's
minimums; it only fills a display field of the summary and no theorem below
depends on its contents. -/
def get_approved_algorithms (_cl : SecurityClassification) : List (List Char) :=
  ["AES".toList, "SHA-256".toList, "SHA-384".toList, "SHA-512".toList]

/-- Canadian assessment summary (src/types.rs, struct CanadianAssessmentSummary). -/
structure CanadianAssessmentSummary where
  files_scanned : Nat
  lines_scanned : Nat
  total_vulnerabilities : Nat
  quantum_vulnerable_algorithms : List (List Char)
  deprecated_algorithms : List (List Char)
  weak_key_sizes : List (List Char)
  compliance_score : Nat
  risk_score : Nat
  cccs_approved_algorithms : List (List Char)
  cccs_deprecated_algorithms : List (List Char)
  cccs_prohibited_algorithms : List (List Char)
  cmvp_validated_count : Nat
  cmvp_required_count : Nat
  itsp_40_111_compliant : Bool
  itsp_40_062_compliant : Bool
  security_classification : SecurityClassification
  classification_compliant : Bool
deriving DecidableEq

/-- State of the categorisation loop of generate_canadian_summary
(src/canadian_compliance.rs). -/
structure CanLists where
  quantum : List (List Char)
  dep : List (List Char)
  weak : List (List Char)
  cccsDep : List (List Char)
  cccsProh : List (List Char)
deriving DecidableEq

/-- One iteration of the loop of generate_canadian_summary: quantum/deprecated
categorisation, then the prohibited-else-deprecated CCCS categorisation, then
the weak-key-size tracking against the requested classification. -/
def canadianStep (cl : SecurityClassification) (st : CanLists) (v : Vulnerability) : CanLists :=
  let name := cryptoName v.crypto_type
  let quantum :=
    if isQuantumVulnerableType v.crypto_type then pushNew st.quantum name else st.quantum
  let dep :=
    if isQuantumVulnerableType v.crypto_type then st.dep else pushNew st.dep name
  let prohDep : List (List Char) × List (List Char) :=
    if is_cccs_prohibited v.crypto_type && !(decide (name ∈ st.cccsProh)) then
      (st.cccsProh ++ [name], st.cccsDep)
    else if is_cccs_deprecated v.crypto_type && !(decide (name ∈ st.cccsDep)) then
      (st.cccsProh, st.cccsDep ++ [name])
    else (st.cccsProh, st.cccsDep)
  let weak :=
    match v.key_size with
    | some ks =>
      if !validate_key_size v.crypto_type ks cl then pushNew st.weak (keyInfo name ks)
      else st.weak
    | none => st.weak
  { quantum := quantum, dep := dep, weak := weak, cccsDep := prohDep.2, cccsProh := prohDep.1 }

/-- calculate_canadian_compliance_score (src/canadian_compliance.rs): 100 with
no findings; otherwise start at 100 and subtract (saturating, which is Nat
subtraction) 40 per prohibited entry, 20 per deprecated entry, 15 per weak-key
entry, and 10 per distinct quantum-vulnerable algorithm name among the
findings (the Rust HashSet cardinality is the number of distinct collected
names, i.e. the dedup length). -/
def calculate_canadian_compliance_score (r : AuditResult)
    (prohibited deprecated weak_keys : List (List Char)) : Nat :=
  if r.stats.total_vulnerabilities = 0 then 100
  else
    let score : Nat := 100
    let score := score - prohibited.length * 40
    let score := score - deprecated.length * 20
    let score := score - weak_keys.length * 15
    let quantum_count :=
      ((r.vulnerabilities.filter (fun v => isQuantumVulnerableType v.crypto_type)).map
        (fun v => cryptoName v.crypto_type)).dedup.length
    score - quantum_count * 10

/-- generate_canadian_summary (src/canadian_compliance.rs). -/
def generate_canadian_summary (r : AuditResult) (cl : SecurityClassification) :
    CanadianAssessmentSummary :=
  let lists := r.vulnerabilities.foldl (canadianStep cl) ⟨[], [], [], [], []⟩
  let cmvp_required_count :=
    (r.vulnerabilities.filter (fun v =>
      get_cccs_status v.crypto_type == CCCSApprovalStatus.Approved
      || get_cccs_status v.crypto_type == CCCSApprovalStatus.ConditionallyApproved)).length
  { files_scanned := 1
    lines_scanned := r.stats.lines_scanned
    total_vulnerabilities := r.stats.total_vulnerabilities
    quantum_vulnerable_algorithms := lists.quantum
    deprecated_algorithms := lists.dep
    weak_key_sizes := lists.weak
    compliance_score := calculate_canadian_compliance_score r lists.cccsProh lists.cccsDep lists.weak
    risk_score := r.risk_score
    cccs_approved_algorithms := get_approved_algorithms cl
    cccs_deprecated_algorithms := lists.cccsDep
    cccs_prohibited_algorithms := lists.cccsProh
    cmvp_validated_count := 0
    cmvp_required_count := cmvp_required_count
    itsp_40_111_compliant := lists.cccsProh.isEmpty && lists.weak.isEmpty
    itsp_40_062_compliant := true
    security_classification := cl
    classification_compliant := lists.weak.isEmpty }

/-! Specification-side definitions, written from the spec's words, to be
compared with the code models above. -/

/-- The section 4.2 risk-score table exactly as the spec states it; in
particular RSA with an absent key size scores 85. -/
def specRiskTable (ct : CryptoType) (ks : Option Nat) : Nat :=
  match ct, ks with
  | .Rsa, some s => if s < 2048 then 100 else if s < 4096 then 85 else 80
  | .Rsa, none => 85
  | .Ecdsa, _ => 85
  | .Ecdh, _ => 85
  | .Dsa, _ => 90
  | .DiffieHellman, _ => 85
  | .Sha1, _ => 95
  | .Md5, _ => 100
  | .Des, _ => 95
  | .TripleDes, _ => 80
  | .Rc4, _ => 95

/-- The section 4.2 table amended in the single cell the code forces: RSA with
an absent key size scores 80 in score_vulnerability. -/
def specRiskTableAmended (ct : CryptoType) (ks : Option Nat) : Nat :=
  match ct, ks with
  | .Rsa, some s => if s < 2048 then 100 else if s < 4096 then 85 else 80
  | .Rsa, none => 80
  | .Ecdsa, _ => 85
  | .Ecdh, _ => 85
  | .Dsa, _ => 90
  | .DiffieHellman, _ => 85
  | .Sha1, _ => 95
  | .Md5, _ => 100
  | .Des, _ => 95
  | .TripleDes, _ => 80
  | .Rc4, _ => 95

/-- The integer-truncating mean demanded by the spec's aggregation rule:
sum divided by count with floor division, 0 for an empty list. -/
def truncatingMean (scores : List Nat) : Nat :=
  if scores = [] then 0 else scores.sum / scores.length

/-- An alternative of RSA_PATTERN matches at offset i of the line: either the
nullable-tail first alternative, which matches exactly where a
case-insensitive rsa occurs, or one of the two keygen phrases. -/
def rsaPatternMatchesAt (l : List Char) (i : Nat) : Bool :=
  startsWithCI (l.drop i) "rsa".toList
  || (startsWithCI (l.drop i) "generate".toList
      && seqContainsCI (l.drop (i + 8)) ["rsa".toList, "key".toList])
  || (startsWithCI (l.drop i) "rsa".toList && containsCI (l.drop (i + 3)) "keygen".toList)

/-- The zero-based offset of the start of the leftmost RSA_PATTERN match in
the line: the value the spec mandates as the column of an RSA finding. -/
def rsaPatternMatchStart (l : List Char) : Option Nat :=
  (List.range (l.length + 1)).find? (fun i => rsaPatternMatchesAt l i)

/-- Amended column rule for detect_rsa: the reference heuristic scan, i.e. the
index of the first character whose lowercase form is the letter r, default 0. -/
def rsaHeuristicColumn (l : List Char) : Nat :=
  (l.findIdx? (fun c => c.toLower == 'r')).getD 0

/-- Amended column rule for detect_ecdsa: index of the first character whose
uppercase form is one of the letters of ECDSA, default 0. -/
def ecdsaHeuristicColumn (l : List Char) : Nat :=
  (l.findIdx? (fun c => ("ECDSA".toList).contains c.toUpper)).getD 0

/-- Amended column rule for detect_ecdh: index of the first character whose
uppercase form is one of the letters of ECDH, default 0. -/
def ecdhHeuristicColumn (l : List Char) : Nat :=
  (l.findIdx? (fun c => ("ECDH".toList).contains c.toUpper)).getD 0

/-- Amended column rule for the needle-based detectors: position of the first
occurrence of the primary literal, else of the fallback literal, default 0. -/
def needleColumn (l a b : List Char) : Nat :=
  ((findSub l a).orElse (fun _ => findSub l b)).getD 0

/-- Claim C1 counterexample: the spec's section 4.2 table gives 85 for RSA
with an absent key size, but score_vulnerability returns 80 there (its
wildcard arm covers None as well as sizes of at least 4096). -/
theorem score_vulnerability_rsa_none_ne_table :
    score_vulnerability CryptoType.Rsa none = 80
      ∧ specRiskTable CryptoType.Rsa none = 85
      ∧ score_vulnerability CryptoType.Rsa none ≠ specRiskTable CryptoType.Rsa none :=
  ⟨rfl, rfl, by decide⟩

/-- Claim C1 (amended): score_vulnerability agrees with the section 4.2 table
at every primitive and optional key size, except that RSA with an absent key
size scores 80 rather than 85. -/
theorem score_vulnerability_matches_amended_table (ct : CryptoType) (ks : Option Nat) :
    score_vulnerability ct ks = specRiskTableAmended ct ks := by
  cases ct <;> cases ks <;>
    first
    | rfl
    | (simp only [score_vulnerability, specRiskTableAmended]; split_ifs <;> omega)

/-- Claim C2 counterexample: on a line mentioning rsa with no extractable key
size, detect_rsa stores risk score 85 while score_vulnerability gives 80 for
the same primitive and key size, so detection-time and table scoring diverge. -/
theorem detect_rsa_scoring_divergence :
    ((detect_rsa ("let k = rsa_keypair();".toList) 1).map
        (fun v => (v.risk_score, v.crypto_type, v.key_size))) = some (85, CryptoType.Rsa, none)
      ∧ score_vulnerability CryptoType.Rsa none = 80 :=
  ⟨by decide, rfl⟩

/-- Claim C2 (amended): for every detector, line and line number, the stored
risk score equals score_vulnerability of the finding's primitive and key size,
except for RSA findings with no captured key size, which store 85 while the
table gives 80. -/
theorem detectors_risk_matches_table (d : List Char → Nat → Option Vulnerability)
    (hd : d ∈ detectorList) (l : List Char) (n : Nat) (v : Vulnerability)
    (h : d l n = some v) :
    v.risk_score =
      if v.crypto_type = CryptoType.Rsa ∧ v.key_size = none then 85
      else score_vulnerability v.crypto_type v.key_size := by
  simp only [detectorList, List.mem_cons, List.not_mem_nil, or_false] at hd
  rcases hd with rfl | rfl | rfl | rfl | rfl | rfl | rfl | rfl | rfl | rfl
  · rcases hks : rsaKeySizeCapture l with _ | size
    · simp only [detect_rsa, hks] at h
      split at h
      · exact Option.noConfusion h
      · have hv := Option.some.inj h
        subst hv
        simp [score_vulnerability]
    · simp only [detect_rsa, hks] at h
      split at h
      · exact Option.noConfusion h
      · split_ifs at h with h1 h2 <;>
          (have hv := Option.some.inj h
           subst hv
           rw [if_neg (by simp)]
           simp only [score_vulnerability]
           split_ifs <;> omega)
  all_goals
    first
    | simp only [detect_ecdsa] at h
    | simp only [detect_ecdh] at h
    | simp only [detect_dsa] at h
    | simp only [detect_diffie_hellman] at h
    | simp only [detect_sha1] at h
    | simp only [detect_md5] at h
    | simp only [detect_des] at h
    | simp only [detect_triple_des] at h
    | simp only [detect_rc4] at h
  all_goals
    split at h
    · exact Option.noConfusion h
    · have hv := Option.some.inj h
      subst hv
      rw [if_neg (by simp)]
      rfl

/-- Witness for the amended claim C2 at a concrete MD5 line. -/
theorem detectors_risk_matches_table_witness :
    ((detect_md5 ("hashlib.md5(data)".toList) 3).map (fun v =>
      decide (v.risk_score =
        if v.crypto_type = CryptoType.Rsa ∧ v.key_size = none then 85
        else score_vulnerability v.crypto_type v.key_size))) = some true := by
  cases ho : detect_md5 ("hashlib.md5(data)".toList) 3 with
  | none => exact absurd ho (by decide)
  | some v =>
    simp only [Option.map]
    exact congrArg some (decide_eq_true
      (detectors_risk_matches_table detect_md5 (by simp [detectorList]) _ 3 v ho))

/-- Claim C3 counterexample: on the line "over RSA stuff" the regex match of
RSA_PATTERN starts at offset 5, but detect_rsa reports column 3 (the first
letter r of "over" found by the heuristic scan). -/
theorem detect_rsa_column_not_match_offset :
    ((detect_rsa ("over RSA stuff".toList) 1).map (fun v => v.column)) = some 3
      ∧ rsaPatternMatchStart ("over RSA stuff".toList) = some 5
      ∧ (3 : Nat) ≠ 5 :=
  ⟨by decide, by decide, by decide⟩

/-- Claim C3 (amended): every detector's reported column is the reference
heuristic character scan (first matching letter for RSA/ECDSA/ECDH, first
occurrence of a case-sensitive needle with one fallback for the others,
defaulting to 0), not the offset of the regular-expression match. -/
theorem detector_columns_heuristic (l : List Char) (n : Nat) :
    (((detect_rsa l n).all fun v => v.column == rsaHeuristicColumn l) = true)
    ∧ (((detect_ecdsa l n).all fun v => v.column == ecdsaHeuristicColumn l) = true)
    ∧ (((detect_ecdh l n).all fun v => v.column == ecdhHeuristicColumn l) = true)
    ∧ (((detect_dsa l n).all fun v =>
        v.column == needleColumn l ("DSA".toList) ("dsa".toList)) = true)
    ∧ (((detect_diffie_hellman l n).all fun v =>
        v.column == needleColumn l ("diffie".toList) ("DH".toList)) = true)
    ∧ (((detect_sha1 l n).all fun v =>
        v.column == needleColumn l ("SHA1".toList) ("sha1".toList)) = true)
    ∧ (((detect_md5 l n).all fun v =>
        v.column == needleColumn l ("MD5".toList) ("md5".toList)) = true)
    ∧ (((detect_des l n).all fun v =>
        v.column == needleColumn l ("DES".toList) ("des".toList)) = true)
    ∧ (((detect_triple_des l n).all fun v =>
        v.column == needleColumn l ("3DES".toList) ("TripleDES".toList)) = true)
    ∧ (((detect_rc4 l n).all fun v =>
        v.column == needleColumn l ("RC4".toList) ("rc4".toList)) = true) := by
  refine ⟨?_, ?_, ?_, ?_, ?_, ?_, ?_, ?_, ?_, ?_⟩ <;>
    simp only [detect_rsa, detect_ecdsa, detect_ecdh, detect_dsa, detect_diffie_hellman,
      detect_sha1, detect_md5, detect_des, detect_triple_des, detect_rc4,
      rsaHeuristicColumn, ecdsaHeuristicColumn, ecdhHeuristicColumn, needleColumn] <;>
    split <;> simp [Option.all]

/-- Claim C4 counterexample: analyze checks the language tag before the
emptiness of the source, so an empty source with an unsupported tag is
rejected as UnsupportedLanguage, not InvalidSource. -/
theorem analyze_empty_unsupported_tag :
    analyze [] ("klingon".toList) = .error (.unsupportedLanguage ("klingon".toList))
      ∧ AuditError.unsupportedLanguage ("klingon".toList) ≠ AuditError.invalidSource :=
  ⟨by decide, by decide⟩

/-- Claim C4 (amended): the language tag is resolved first; for every
supported tag an empty or whitespace-only source yields InvalidSource, and for
every unsupported tag analyze yields UnsupportedLanguage regardless of the
source. -/
theorem analyze_entrance_checks (src tag : List Char) :
    ((Language.from_string tag).isSome = true → (trim src).isEmpty = true →
        analyze src tag = .error .invalidSource)
    ∧ (Language.from_string tag = none →
        analyze src tag = .error (.unsupportedLanguage tag)) := by
  constructor
  · intro hl ht
    unfold analyze
    cases hfs : Language.from_string tag with
    | none => rw [hfs] at hl; simp at hl
    | some lang => simp [ht]
  · intro hl
    unfold analyze
    rw [hl]

/-- Witness for the amended claim C4 at a whitespace-only source and the alias
rs, and at an unsupported tag. -/
theorem analyze_entrance_checks_witness :
    analyze ("   \n\t".toList) ("rs".toList) = .error .invalidSource
      ∧ analyze ("x".toList) ("klingon2".toList)
          = .error (.unsupportedLanguage ("klingon2".toList)) :=
  ⟨(analyze_entrance_checks _ _).1 (by decide) (by decide),
   (analyze_entrance_checks _ _).2 (by decide)⟩

/-- Claim C7: calculate_risk_score sets the overall risk score to the
integer-truncating mean of the finding risk scores, and to 0 when there are no
findings. -/
theorem calculate_risk_score_is_truncating_mean (r : AuditResult) :
    (r.calculate_risk_score).risk_score =
      truncatingMean (r.vulnerabilities.map (·.risk_score)) := by
  by_cases h : r.vulnerabilities = [] <;>
    simp [AuditResult.calculate_risk_score, truncatingMean, h, List.isEmpty_iff]

/-! Support lemmas for evaluating analyze on boundary-sized inputs. -/

theorem utf8Len_append (a b : List Char) : utf8Len (a ++ b) = utf8Len a + utf8Len b := by
  simp [utf8Len]

theorem utf8Len_replicate (n : Nat) (c : Char) :
    utf8Len (List.replicate n c) = n * c.utf8Size := by
  induction n with
  | zero => simp [utf8Len]
  | succ m ih =>
    rw [List.replicate_succ]
    simp only [utf8Len, List.map_cons, List.sum_cons] at *
    rw [ih, Nat.succ_mul]
    omega

theorem trim_replicate_a (n : Nat) : trim (List.replicate n 'a') = List.replicate n 'a' := by
  have hdrop : ∀ m : Nat, (List.replicate m 'a').dropWhile isRustWs = List.replicate m 'a' := by
    intro m
    cases m with
    | zero => simp
    | succ k =>
      rw [List.replicate_succ, List.dropWhile_cons]
      simp [isRustWs]
  unfold trim
  rw [hdrop, List.reverse_replicate, hdrop, List.reverse_replicate]

theorem trim_replicate_a_not_empty (n : Nat) (h : 0 < n) :
    (trim (List.replicate n 'a')).isEmpty = false := by
  rw [trim_replicate_a]
  cases n with
  | zero => omega
  | succ m => simp [List.replicate_succ, List.isEmpty]

theorem trim_replicate_newline_a (n : Nat) :
    trim (List.replicate n '\n' ++ ['a']) = ['a'] := by
  have hdrop : (List.replicate n '\n' ++ ['a']).dropWhile isRustWs = ['a'] := by
    induction n with
    | zero => simp [List.dropWhile_cons, isRustWs]
    | succ m ih =>
      rw [List.replicate_succ, List.cons_append, List.dropWhile_cons]
      simp only [isRustWs]
      simpa using ih
  unfold trim
  rw [hdrop]
  rfl

theorem rustLinesGo_length_no_newline (l : List Char) (h : '\n' ∉ l) :
    ∀ cur : List Char, (rustLinesGo cur l).length = 1 := by
  induction l with
  | nil => intro cur; rfl
  | cons c cs ih =>
    intro cur
    have hc : ¬(c = '\n') := fun hcn => h (hcn ▸ List.mem_cons_self c cs)
    show (rustLinesGo cur (c :: cs)).length = 1
    rw [show rustLinesGo cur (c :: cs) = rustLinesGo (c :: cur) cs from by
      simp [rustLinesGo, hc]]
    exact ih (fun hm => h (List.mem_cons_of_mem c hm)) _

theorem rustLines_length_no_newline (l : List Char) (h : '\n' ∉ l) :
    (rustLines l).length ≤ 1 := by
  cases l with
  | nil => simp [rustLines]
  | cons c cs =>
    rw [rustLines]
    exact le_of_eq (rustLinesGo_length_no_newline _ h [])

theorem rustLinesGo_replicate_newline_a (n : Nat) :
    (rustLinesGo [] (List.replicate n '\n' ++ ['a'])).length = n + 1 := by
  induction n with
  | zero => rfl
  | succ m ih =>
    rw [List.replicate_succ, List.cons_append]
    cases hrep : List.replicate m '\n' ++ ['a'] with
    | nil => exact absurd hrep (by simp)
    | cons x xs =>
      rw [show rustLinesGo [] ('\n' :: x :: xs) = stripCR List.nil.reverse :: rustLinesGo [] (x :: xs) from by
        simp [rustLinesGo]]
      rw [hrep] at ih
      simp only [List.length_cons, ih]

theorem rustLines_replicate_newline_a (n : Nat) :
    (rustLines (List.replicate n '\n' ++ ['a'])).length = n + 1 := by
  cases n with
  | zero => rfl
  | succ m =>
    rw [List.replicate_succ, List.cons_append, rustLines]
    rw [← List.cons_append, ← List.replicate_succ]
    exact rustLinesGo_replicate_newline_a (m + 1)

/-- Claim C8: the source-size and line-count checks are strict comparisons
against the limits: a source of exactly 10 MiB passes the size check and one
byte more is rejected with SourceTooLarge carrying the 10 MiB limit; exactly
500000 lines pass the line check and 500001 lines are rejected with
TooManyLines. -/
theorem analyze_limit_boundaries (src lang : List Char) :
    ((Language.from_string lang).isSome = true → (trim src).isEmpty = false →
        utf8Len src = MAX_SOURCE_SIZE → (rustLines src).length ≤ MAX_LINES →
        (analyze src lang).isOk = true)
    ∧ ((Language.from_string lang).isSome = true → (trim src).isEmpty = false →
        utf8Len src = MAX_SOURCE_SIZE + 1 →
        analyze src lang = .error (.sourceTooLarge (MAX_SOURCE_SIZE + 1) MAX_SOURCE_SIZE))
    ∧ ((Language.from_string lang).isSome = true → (trim src).isEmpty = false →
        utf8Len src ≤ MAX_SOURCE_SIZE → (rustLines src).length = MAX_LINES →
        (analyze src lang).isOk = true)
    ∧ ((Language.from_string lang).isSome = true → (trim src).isEmpty = false →
        utf8Len src ≤ MAX_SOURCE_SIZE → (rustLines src).length = MAX_LINES + 1 →
        analyze src lang = .error (.tooManyLines (MAX_LINES + 1) MAX_LINES)) := by
  refine ⟨?_, ?_, ?_, ?_⟩
  · intro hl ht hsz hln
    obtain ⟨lg, hlg⟩ := Option.isSome_iff_exists.mp hl
    have hsz2 : ¬(utf8Len src > MAX_SOURCE_SIZE) := by omega
    have hln2 : ¬((rustLines src).length > MAX_LINES) := by omega
    unfold analyze
    rw [hlg]
    simp [ht, hsz2, hln2, Except.isOk, Except.toBool]
  · intro hl ht hsz
    obtain ⟨lg, hlg⟩ := Option.isSome_iff_exists.mp hl
    have hsz2 : utf8Len src > MAX_SOURCE_SIZE := by omega
    unfold analyze
    rw [hlg]
    simp [ht, hsz2, hsz]
  · intro hl ht hsz hln
    obtain ⟨lg, hlg⟩ := Option.isSome_iff_exists.mp hl
    have hsz2 : ¬(utf8Len src > MAX_SOURCE_SIZE) := by omega
    have hln2 : ¬((rustLines src).length > MAX_LINES) := by omega
    unfold analyze
    rw [hlg]
    simp [ht, hsz2, hln2, Except.isOk, Except.toBool]
  · intro hl ht hsz hln
    obtain ⟨lg, hlg⟩ := Option.isSome_iff_exists.mp hl
    have hsz2 : ¬(utf8Len src > MAX_SOURCE_SIZE) := by omega
    have hln2 : (rustLines src).length > MAX_LINES := by omega
    unfold analyze
    rw [hlg]
    simp [ht, hsz2, hln2, hln]

/-- Witness for claim C8 at the four boundary inputs: an all-a source of
exactly 10 MiB and of 10 MiB + 1, and a source of exactly 500000 and of
500001 lines. -/
theorem analyze_limit_boundaries_witness :
    (analyze (List.replicate MAX_SOURCE_SIZE 'a') ("rust".toList)).isOk = true
    ∧ analyze (List.replicate (MAX_SOURCE_SIZE + 1) 'a') ("rust".toList)
        = .error (.sourceTooLarge (MAX_SOURCE_SIZE + 1) MAX_SOURCE_SIZE)
    ∧ (analyze (List.replicate 499999 '\n' ++ ['a']) ("rust".toList)).isOk = true
    ∧ analyze (List.replicate 500000 '\n' ++ ['a']) ("rust".toList)
        = .error (.tooManyLines (MAX_LINES + 1) MAX_LINES) := by
  have ha : Char.utf8Size 'a' = 1 := rfl
  have hn : Char.utf8Size '\n' = 1 := rfl
  refine ⟨?_, ?_, ?_, ?_⟩
  · exact (analyze_limit_boundaries _ _).1 (by decide)
      (trim_replicate_a_not_empty _ (by norm_num [MAX_SOURCE_SIZE]))
      (by rw [utf8Len_replicate, ha, Nat.mul_one])
      (le_trans (rustLines_length_no_newline _ (by simp)) (by norm_num [MAX_LINES]))
  · exact (analyze_limit_boundaries _ _).2.1 (by decide)
      (trim_replicate_a_not_empty _ (by norm_num [MAX_SOURCE_SIZE]))
      (by rw [utf8Len_replicate, ha, Nat.mul_one])
  · exact (analyze_limit_boundaries _ _).2.2.1 (by decide)
      (by rw [trim_replicate_newline_a]; rfl)
      (by rw [utf8Len_append, utf8Len_replicate, hn]
          simp only [utf8Len, List.map_cons, List.map_nil, List.sum_cons, List.sum_nil, ha]
          norm_num [MAX_SOURCE_SIZE])
      (by rw [rustLines_replicate_newline_a]; norm_num [MAX_LINES])
  · exact (analyze_limit_boundaries _ _).2.2.2 (by decide)
      (by rw [trim_replicate_newline_a]; rfl)
      (by rw [utf8Len_append, utf8Len_replicate, hn]
          simp only [utf8Len, List.map_cons, List.map_nil, List.sum_cons, List.sum_nil, ha]
          norm_num [MAX_SOURCE_SIZE])
      (by rw [rustLines_replicate_newline_a]; norm_num [MAX_LINES])

/-! The pipeline structure of a successful analyze call, and the invariants it
maintains. -/

/-- The severity totals of an AuditResult agree with the findings list. -/
def statsConsistent (r : AuditResult) : Prop :=
  r.stats.critical_count + r.stats.high_count + r.stats.medium_count + r.stats.low_count
      = r.vulnerabilities.length
  ∧ r.stats.total_vulnerabilities = r.vulnerabilities.length

instance (r : AuditResult) : Decidable (statsConsistent r) := by
  unfold statsConsistent; infer_instance

/-- A finding as every detector produces it: severity High or Critical and a
risk score between 80 and 100. -/
def findingBounded (v : Vulnerability) : Prop :=
  (v.severity = Severity.High ∨ v.severity = Severity.Critical)
  ∧ 80 ≤ v.risk_score ∧ v.risk_score ≤ 100

instance (v : Vulnerability) : Decidable (findingBounded v) := by
  unfold findingBounded; infer_instance

theorem statsConsistent_new (lang : Language) (n : Nat) :
    statsConsistent (AuditResult.new lang n) := by
  exact ⟨rfl, rfl⟩

theorem statsConsistent_add (r : AuditResult) (v : Vulnerability)
    (h : statsConsistent r) : statsConsistent (r.add_vulnerability v) := by
  obtain ⟨ct, sev, rs, ln, col, cx, msg, rc, ks⟩ := v
  obtain ⟨h1, h2⟩ := h
  cases sev <;>
    simp only [AuditResult.add_vulnerability, statsConsistent, List.length_append,
      List.length_cons, List.length_nil] <;> omega

theorem statsConsistent_foldl (vs : List Vulnerability) (r : AuditResult)
    (h : statsConsistent r) :
    statsConsistent (vs.foldl AuditResult.add_vulnerability r) := by
  induction vs generalizing r with
  | nil => exact h
  | cons a as ih => exact ih _ (statsConsistent_add _ _ h)

theorem statsConsistent_scanLine (r : AuditResult) (line : List Char) (n : Nat)
    (h : statsConsistent r) : statsConsistent (scanLine r line n) :=
  statsConsistent_foldl _ _ h

theorem statsConsistent_scan_fold (ps : List (Nat × List Char)) (r : AuditResult)
    (h : statsConsistent r) :
    statsConsistent (ps.foldl (fun a p => scanLine a p.2 (p.1 + 1)) r) := by
  induction ps generalizing r with
  | nil => exact h
  | cons a as ih => exact ih _ (statsConsistent_scanLine _ _ _ h)

theorem calculate_risk_score_stats (r : AuditResult) :
    (r.calculate_risk_score).stats = r.stats := by
  unfold AuditResult.calculate_risk_score
  split <;> rfl

theorem calculate_risk_score_vulns (r : AuditResult) :
    (r.calculate_risk_score).vulnerabilities = r.vulnerabilities := by
  unfold AuditResult.calculate_risk_score
  split <;> rfl

theorem generate_recommendations_stats (r : AuditResult) :
    (r.generate_recommendations).stats = r.stats := rfl

theorem generate_recommendations_vulns (r : AuditResult) :
    (r.generate_recommendations).vulnerabilities = r.vulnerabilities := rfl

theorem generate_recommendations_risk (r : AuditResult) :
    (r.generate_recommendations).risk_score = r.risk_score := rfl

/-- Decomposition of a successful analyze call into its pipeline stages. -/
theorem analyze_ok_structure (src lang : List Char) (r : AuditResult)
    (h : analyze src lang = .ok r) :
    ∃ lg : Language, Language.from_string lang = some lg
      ∧ r = ((rustLines src).enum.foldl (fun a p => scanLine a p.2 (p.1 + 1))
              (AuditResult.new lg (rustLines src).length)).calculate_risk_score.generate_recommendations := by
  unfold analyze at h
  cases hfs : Language.from_string lang with
  | none => rw [hfs] at h; exact Except.noConfusion h
  | some lg =>
    rw [hfs] at h
    simp only at h
    split at h
    · exact Except.noConfusion h
    · split at h
      · exact Except.noConfusion h
      · split at h
        · exact Except.noConfusion h
        · exact ⟨lg, rfl, (Except.ok.inj h).symm⟩

/-- Claim C9: the per-severity counts and the total always equal the length of
the findings list: for a fresh AuditResult, after every add_vulnerability, and
for every result analyze returns. -/
theorem audit_counts_invariant :
    (∀ (lang : Language) (n : Nat), statsConsistent (AuditResult.new lang n))
    ∧ (∀ (r : AuditResult) (v : Vulnerability),
        statsConsistent r → statsConsistent (r.add_vulnerability v))
    ∧ (∀ (src lang : List Char) (r : AuditResult),
        analyze src lang = .ok r → statsConsistent r) := by
  refine ⟨statsConsistent_new, statsConsistent_add, ?_⟩
  intro src lang r h
  obtain ⟨lg, _, hr⟩ := analyze_ok_structure src lang r h
  subst hr
  have hs := statsConsistent_scan_fold ((rustLines src).enum) _
    (statsConsistent_new lg ((rustLines src).length))
  unfold statsConsistent at *
  rw [generate_recommendations_stats, generate_recommendations_vulns,
    calculate_risk_score_stats, calculate_risk_score_vulns]
  exact hs

/-- Witness for claim C9 on a concrete MD5-bearing source. -/
theorem audit_counts_invariant_witness :
    ((analyze ("hashlib.md5(data)".toList) ("python".toList)).toOption.map
      (fun r => decide (statsConsistent r))) = some true := by
  cases ho : analyze ("hashlib.md5(data)".toList) ("python".toList) with
  | error e =>
    have hok : (analyze ("hashlib.md5(data)".toList) ("python".toList)).isOk = true := by decide
    rw [ho] at hok
    exact Bool.noConfusion hok
  | ok r =>
    simp only [Except.toOption, Option.map]
    exact congrArg some (decide_eq_true (audit_counts_invariant.2.2 _ _ r ho))

theorem riskBound80 : (80 : Nat) ≤ 80 ∧ (80 : Nat) ≤ 100 := by decide

theorem riskBound85 : (80 : Nat) ≤ 85 ∧ (85 : Nat) ≤ 100 := by decide

theorem riskBound90 : (80 : Nat) ≤ 90 ∧ (90 : Nat) ≤ 100 := by decide

theorem riskBound95 : (80 : Nat) ≤ 95 ∧ (95 : Nat) ≤ 100 := by decide

theorem riskBound100 : (80 : Nat) ≤ 100 ∧ (100 : Nat) ≤ 100 := by decide

theorem detector_outputs_bounded (d : List Char → Nat → Option Vulnerability)
    (hd : d ∈ detectorList) (l : List Char) (n : Nat) (v : Vulnerability)
    (h : d l n = some v) : findingBounded v := by
  simp only [detectorList, List.mem_cons, List.not_mem_nil, or_false] at hd
  rcases hd with rfl | rfl | rfl | rfl | rfl | rfl | rfl | rfl | rfl | rfl
  · rcases hks : rsaKeySizeCapture l with _ | size
    · simp only [detect_rsa, hks] at h
      split at h
      · exact Option.noConfusion h
      · have hv := Option.some.inj h
        subst hv
        exact ⟨Or.inl rfl, riskBound85.1, riskBound85.2⟩
    · simp only [detect_rsa, hks] at h
      split at h
      · exact Option.noConfusion h
      · split_ifs at h with h1 h2
        · have hv := Option.some.inj h
          subst hv
          exact ⟨Or.inr rfl, riskBound100.1, riskBound100.2⟩
        · have hv := Option.some.inj h
          subst hv
          exact ⟨Or.inl rfl, riskBound85.1, riskBound85.2⟩
        · have hv := Option.some.inj h
          subst hv
          exact ⟨Or.inl rfl, riskBound80.1, riskBound80.2⟩
  all_goals
    first
    | simp only [detect_ecdsa] at h
    | simp only [detect_ecdh] at h
    | simp only [detect_dsa] at h
    | simp only [detect_diffie_hellman] at h
    | simp only [detect_sha1] at h
    | simp only [detect_md5] at h
    | simp only [detect_des] at h
    | simp only [detect_triple_des] at h
    | simp only [detect_rc4] at h
  all_goals
    split at h
    · exact Option.noConfusion h
    · have hv := Option.some.inj h
      subst hv
      first
      | exact ⟨Or.inl rfl, riskBound85.1, riskBound85.2⟩
      | exact ⟨Or.inl rfl, riskBound90.1, riskBound90.2⟩
      | exact ⟨Or.inl rfl, riskBound80.1, riskBound80.2⟩
      | exact ⟨Or.inr rfl, riskBound95.1, riskBound95.2⟩
      | exact ⟨Or.inr rfl, riskBound100.1, riskBound100.2⟩

/-- Every finding is produced by a detector and the Medium/Low counters never
move: the bounded-result invariant of the scan. -/
def resultBounded (r : AuditResult) : Prop :=
  (∀ v ∈ r.vulnerabilities, findingBounded v)
  ∧ r.stats.medium_count = 0 ∧ r.stats.low_count = 0

theorem add_vulnerability_medium_count (r : AuditResult) (v : Vulnerability)
    (hv : v.severity = Severity.High ∨ v.severity = Severity.Critical) :
    (r.add_vulnerability v).stats.medium_count = r.stats.medium_count := by
  obtain ⟨ct, sev, rs, ln, col, cx, msg, rc, ks⟩ := v
  cases sev <;> first | rfl | (rcases hv with hs | hs <;> exact Severity.noConfusion hs)

theorem add_vulnerability_low_count (r : AuditResult) (v : Vulnerability)
    (hv : v.severity = Severity.High ∨ v.severity = Severity.Critical) :
    (r.add_vulnerability v).stats.low_count = r.stats.low_count := by
  obtain ⟨ct, sev, rs, ln, col, cx, msg, rc, ks⟩ := v
  cases sev <;> first | rfl | (rcases hv with hs | hs <;> exact Severity.noConfusion hs)

theorem resultBounded_add (r : AuditResult) (v : Vulnerability)
    (h : resultBounded r) (hv : findingBounded v) :
    resultBounded (r.add_vulnerability v) := by
  obtain ⟨h1, h2, h3⟩ := h
  refine ⟨?_, ?_, ?_⟩
  · intro w hw
    have hw2 : w ∈ r.vulnerabilities ∨ w = v := by
      simpa [AuditResult.add_vulnerability] using hw
    rcases hw2 with hw1 | rfl
    · exact h1 w hw1
    · exact hv
  · rw [add_vulnerability_medium_count r v hv.1]
    exact h2
  · rw [add_vulnerability_low_count r v hv.1]
    exact h3

theorem resultBounded_scanLine (r : AuditResult) (line : List Char) (n : Nat)
    (h : resultBounded r) : resultBounded (scanLine r line n) := by
  unfold scanLine
  have hall : ∀ v ∈ detectorList.filterMap (fun d => d line n), findingBounded v := by
    intro v hv
    obtain ⟨d, hd, hdv⟩ := List.mem_filterMap.mp hv
    exact detector_outputs_bounded d hd line n v hdv
  generalize hl : detectorList.filterMap (fun d => d line n) = vs at hall
  clear hl
  induction vs generalizing r with
  | nil => exact h
  | cons a as ih =>
    exact ih _ (resultBounded_add _ _ h (hall a (List.mem_cons_self a as)))
      (fun v hv => hall v (List.mem_cons_of_mem a hv))

theorem resultBounded_scan_fold (ps : List (Nat × List Char)) (r : AuditResult)
    (h : resultBounded r) :
    resultBounded (ps.foldl (fun a p => scanLine a p.2 (p.1 + 1)) r) := by
  induction ps generalizing r with
  | nil => exact h
  | cons a as ih => exact ih _ (resultBounded_scanLine _ _ _ h)

/-- Shared invariant: every result analyze returns is bounded. -/
theorem analyze_result_bounded (src lang : List Char) (r : AuditResult)
    (h : analyze src lang = .ok r) : resultBounded r := by
  obtain ⟨lg, _, hr⟩ := analyze_ok_structure src lang r h
  subst hr
  have hs := resultBounded_scan_fold ((rustLines src).enum)
    (AuditResult.new lg ((rustLines src).length))
    ⟨fun v hv => absurd hv (List.not_mem_nil v), rfl, rfl⟩
  unfold resultBounded at *
  rw [generate_recommendations_stats, generate_recommendations_vulns,
    calculate_risk_score_stats, calculate_risk_score_vulns]
  exact hs

/-- Shared bound: the aggregate risk score of every result analyze returns is
at most 100 (each finding scores at most 100, and the aggregate is their
truncating mean). -/
theorem analyze_risk_le_100 (src lang : List Char) (r : AuditResult)
    (h : analyze src lang = .ok r) : r.risk_score ≤ 100 := by
  obtain ⟨lg, _, hr⟩ := analyze_ok_structure src lang r h
  obtain ⟨hb1, _, _⟩ := analyze_result_bounded src lang r h
  subst hr
  rw [generate_recommendations_vulns, calculate_risk_score_vulns] at hb1
  rw [generate_recommendations_risk]
  set scanned := ((rustLines src).enum.foldl (fun a p => scanLine a p.2 (p.1 + 1))
    (AuditResult.new lg ((rustLines src).length))) with hsc
  unfold AuditResult.calculate_risk_score
  split
  · simp
  · rename_i hne
    show (scanned.vulnerabilities.map (·.risk_score)).sum / scanned.vulnerabilities.length ≤ 100
    have hsum : (scanned.vulnerabilities.map (·.risk_score)).sum
        ≤ scanned.vulnerabilities.length * 100 := by
      have := List.sum_le_card_nsmul (scanned.vulnerabilities.map (·.risk_score)) 100 ?_
      · simpa using this
      · intro x hx
        obtain ⟨v, hv, hvx⟩ := List.mem_map.mp hx
        rw [← hvx]
        exact (hb1 v hv).2.2
    have hlen : 0 < scanned.vulnerabilities.length := by
      cases hv : scanned.vulnerabilities with
      | nil => rw [hv] at hne; simp [List.isEmpty] at hne
      | cons a as => simp
    calc (scanned.vulnerabilities.map (·.risk_score)).sum / scanned.vulnerabilities.length
        ≤ scanned.vulnerabilities.length * 100 / scanned.vulnerabilities.length :=
          Nat.div_le_div_right hsum
      _ = 100 := Nat.mul_div_cancel_left 100 hlen

/-- Claim C10: every finding in a result returned by analyze has severity High
or Critical and a risk score in the interval from 80 to 100, and the Medium
and Low counters of a returned result are always 0. -/
theorem analyze_findings_bounded (src lang : List Char) (r : AuditResult)
    (h : analyze src lang = .ok r) :
    (∀ v ∈ r.vulnerabilities,
      (v.severity = Severity.High ∨ v.severity = Severity.Critical)
      ∧ 80 ≤ v.risk_score ∧ v.risk_score ≤ 100)
    ∧ r.stats.medium_count = 0 ∧ r.stats.low_count = 0 :=
  analyze_result_bounded src lang r h

/-- Witness for claim C10 on a concrete MD5-bearing source. -/
theorem analyze_findings_bounded_witness :
    ((analyze ("x = crypto.createHash(\x27md5\x27)".toList) ("js".toList)).toOption.map
      (fun r => decide ((∀ v ∈ r.vulnerabilities,
        (v.severity = Severity.High ∨ v.severity = Severity.Critical)
        ∧ 80 ≤ v.risk_score ∧ v.risk_score ≤ 100)
      ∧ r.stats.medium_count = 0 ∧ r.stats.low_count = 0))) = some true := by
  cases ho : analyze ("x = crypto.createHash(\x27md5\x27)".toList) ("js".toList) with
  | error e =>
    have hok : (analyze ("x = crypto.createHash(\x27md5\x27)".toList) ("js".toList)).isOk = true := by
      decide
    rw [ho] at hok
    exact Bool.noConfusion hok
  | ok r =>
    simp only [Except.toOption, Option.map]
    exact congrArg some (decide_eq_true (analyze_findings_bounded _ _ r ho))

/-- Claim C6: for every result analyze returns, the Framework-A compliance
score of the generated summary is 100 minus the aggregate risk score (the
aggregate never exceeds 100, so the u32 subtraction is the saturating one),
and it is 100 when there are no findings. -/
theorem summary_compliance_inverse_risk (src lang : List Char) (r : AuditResult)
    (h : analyze src lang = .ok r) :
    r.risk_score ≤ 100
    ∧ (generate_summary r).compliance_score = 100 - r.risk_score
    ∧ (r.vulnerabilities = [] → (generate_summary r).compliance_score = 100) := by
  refine ⟨analyze_risk_le_100 src lang r h, ?_, ?_⟩
  · by_cases hz : r.risk_score = 0 <;> simp [generate_summary, hz]
  · intro hv
    obtain ⟨lg, _, hr⟩ := analyze_ok_structure src lang r h
    have hz : r.risk_score = 0 := by
      rw [hr, generate_recommendations_risk]
      rw [hr, generate_recommendations_vulns, calculate_risk_score_vulns] at hv
      unfold AuditResult.calculate_risk_score
      split
      · rfl
      · rename_i hne
        rw [hv] at hne
        simp [List.isEmpty] at hne
    simp [generate_summary, hz]

/-- Witness for claim C6 on a concrete MD5-bearing source. -/
theorem summary_compliance_inverse_risk_witness :
    ((analyze ("hashlib.md5(x)".toList) ("py".toList)).toOption.map
      (fun r => decide ((generate_summary r).compliance_score = 100 - r.risk_score))) = some true := by
  cases ho : analyze ("hashlib.md5(x)".toList) ("py".toList) with
  | error e =>
    have hok : (analyze ("hashlib.md5(x)".toList) ("py".toList)).isOk = true := by decide
    rw [ho] at hok
    exact Bool.noConfusion hok
  | ok r =>
    simp only [Except.toOption, Option.map]
    exact congrArg some (decide_eq_true (summary_compliance_inverse_risk _ _ r ho).2.1)

/-! Machinery for the Framework-B (Canadian penalty) score: the dedup folds of
the summary loop count distinct elements, and the formatted weak-key labels
are in bijection with the (primitive, size) pairs they encode. -/

theorem pushNew_mem {α : Type} [DecidableEq α] (acc : List α) (a x : α) :
    x ∈ pushNew acc a ↔ x ∈ acc ∨ x = a := by
  unfold pushNew
  split
  · rename_i hm
    constructor
    · exact Or.inl
    · rintro (hx | rfl)
      · exact hx
      · exact hm
  · simp [List.mem_append]

theorem pushNew_nodup {α : Type} [DecidableEq α] (acc : List α) (a : α) (h : acc.Nodup) :
    (pushNew acc a).Nodup := by
  unfold pushNew
  split
  · exact h
  · rename_i hm
    rw [List.nodup_append]
    exact ⟨h, List.nodup_singleton a, fun x hx hxa => hm ((List.mem_singleton.mp hxa) ▸ hx)⟩

theorem foldl_pushNew_mem {α : Type} [DecidableEq α] (l : List α) :
    ∀ (acc : List α) (x : α), x ∈ l.foldl pushNew acc ↔ x ∈ acc ∨ x ∈ l := by
  induction l with
  | nil => intro acc x; simp
  | cons a as ih =>
    intro acc x
    rw [List.foldl_cons, ih, pushNew_mem]
    simp only [List.mem_cons]
    tauto

theorem foldl_pushNew_nodup {α : Type} [DecidableEq α] (l : List α) :
    ∀ acc : List α, acc.Nodup → (l.foldl pushNew acc).Nodup := by
  induction l with
  | nil => intro acc h; exact h
  | cons a as ih => intro acc h; exact ih _ (pushNew_nodup acc a h)

theorem foldl_pushNew_length {α : Type} [DecidableEq α] (l : List α) :
    (l.foldl pushNew []).length = l.dedup.length := by
  have hnd : (l.foldl pushNew []).Nodup := foldl_pushNew_nodup l [] List.nodup_nil
  have hts : (l.foldl pushNew []).toFinset = l.toFinset := by
    ext x
    simp only [List.mem_toFinset]
    rw [foldl_pushNew_mem]
    simp
  calc (l.foldl pushNew []).length
      = (l.foldl pushNew []).toFinset.card := (List.toFinset_card_of_nodup hnd).symm
    _ = l.toFinset.card := by rw [hts]
    _ = l.dedup.length := List.card_toFinset l

theorem list_toFinset_map {α β : Type} [DecidableEq α] [DecidableEq β] (f : α → β)
    (l : List α) : (l.map f).toFinset = l.toFinset.image f := by
  ext b
  simp

theorem dedup_length_map_inj {α β : Type} [DecidableEq α] [DecidableEq β] (f : α → β)
    (hf : ∀ a b, f a = f b → a = b) (l : List α) :
    ((l.map f).dedup).length = l.dedup.length := by
  rw [← List.card_toFinset, ← List.card_toFinset, list_toFinset_map]
  exact Finset.card_image_of_injective l.toFinset (fun a b hab => hf a b hab)

theorem dedup_length_const {α : Type} [DecidableEq α] (l : List α) (a : α) (hne : l ≠ [])
    (h : ∀ x ∈ l, x = a) : l.dedup.length = 1 := by
  rw [← List.card_toFinset]
  have hts : l.toFinset = {a} := by
    ext x
    simp only [List.mem_toFinset, Finset.mem_singleton]
    constructor
    · exact h x
    · rintro rfl
      cases l with
      | nil => exact absurd rfl hne
      | cons b bs =>
        have hb := h b (List.mem_cons_self b bs)
        rw [← hb]
        exact List.mem_cons_self b bs
  rw [hts, Finset.card_singleton]

theorem digitChar_isDigit : ∀ n < 10, (Nat.digitChar n).isDigit = true := by decide

theorem digitChar_injOn : ∀ a < 10, ∀ b < 10, Nat.digitChar a = Nat.digitChar b → a = b := by
  decide

theorem natChars_eq (n : Nat) :
    natChars n =
      if n < 10 then [Nat.digitChar n] else natChars (n / 10) ++ [Nat.digitChar (n % 10)] := by
  rw [natChars]

theorem natChars_ne_nil (n : Nat) : natChars n ≠ [] := by
  rw [natChars_eq]
  split
  · simp
  · simp

theorem append_singleton_inj {α : Type} {xs ys : List α} {x y : α}
    (h : xs ++ [x] = ys ++ [y]) : xs = ys ∧ x = y := by
  have h2 := congrArg List.reverse h
  simp only [List.reverse_append, List.reverse_cons, List.reverse_nil, List.nil_append,
    List.singleton_append] at h2
  obtain ⟨h3, h4⟩ := List.cons.inj h2
  exact ⟨by rw [← List.reverse_reverse xs, h4, List.reverse_reverse], h3⟩

theorem natChars_inj : ∀ a b : Nat, natChars a = natChars b → a = b := by
  intro a
  induction a using Nat.strong_induction_on with
  | _ a ih =>
    intro b h
    by_cases ha : a < 10 <;> by_cases hb : b < 10
    · rw [natChars_eq a, natChars_eq b, if_pos ha, if_pos hb] at h
      exact digitChar_injOn a ha b hb (List.cons.inj h).1
    · rw [natChars_eq a, natChars_eq b, if_pos ha, if_neg hb] at h
      have hlen := congrArg List.length h
      have hpos : 0 < (natChars (b / 10)).length :=
        List.length_pos.mpr (natChars_ne_nil (b / 10))
      simp only [List.length_singleton, List.length_append, List.length_cons,
        List.length_nil] at hlen
      omega
    · rw [natChars_eq a, natChars_eq b, if_neg ha, if_pos hb] at h
      have hlen := congrArg List.length h
      have hpos : 0 < (natChars (a / 10)).length :=
        List.length_pos.mpr (natChars_ne_nil (a / 10))
      simp only [List.length_singleton, List.length_append, List.length_cons,
        List.length_nil] at hlen
      omega
    · rw [natChars_eq a, natChars_eq b, if_neg ha, if_neg hb] at h
      obtain ⟨h1, h2⟩ := append_singleton_inj h
      have hdiv : a / 10 = b / 10 :=
        ih (a / 10) (Nat.div_lt_self (by omega) (by omega)) (b / 10) h1
      have hmod : a % 10 = b % 10 :=
        digitChar_injOn (a % 10) (Nat.mod_lt _ (by omega)) (b % 10)
          (Nat.mod_lt _ (by omega)) h2
      omega

theorem append_space_inj : ∀ (xs ys as bs : List Char), ' ' ∉ xs → ' ' ∉ ys →
    xs ++ ' ' :: as = ys ++ ' ' :: bs → xs = ys ∧ as = bs := by
  intro xs
  induction xs with
  | nil =>
    intro ys as bs _ hy h
    cases ys with
    | nil => simpa using h
    | cons c cs =>
      simp only [List.nil_append, List.cons_append] at h
      obtain ⟨h1, _⟩ := List.cons.inj h
      exact absurd (h1 ▸ List.mem_cons_self c cs) hy
  | cons x xs ih =>
    intro ys as bs hx hy h
    cases ys with
    | nil =>
      simp only [List.nil_append, List.cons_append] at h
      obtain ⟨h1, _⟩ := List.cons.inj h
      exact absurd (h1 ▸ List.mem_cons_self x xs) hx
    | cons y ys2 =>
      simp only [List.cons_append] at h
      obtain ⟨h1, h2⟩ := List.cons.inj h
      have hx2 : ' ' ∉ xs := fun hm => hx (List.mem_cons_of_mem _ hm)
      have hy2 : ' ' ∉ ys2 := fun hm => hy (List.mem_cons_of_mem _ hm)
      obtain ⟨h3, h4⟩ := ih ys2 as bs hx2 hy2 h2
      exact ⟨by rw [h1, h3], h4⟩

theorem append_cancel_suffix {α : Type} {as cs t : List α} (h : as ++ t = cs ++ t) :
    as = cs := by
  have h2 := congrArg List.reverse h
  simp only [List.reverse_append] at h2
  have h3 := List.append_cancel_left h2
  rw [← List.reverse_reverse as, h3, List.reverse_reverse]

theorem cryptoName_no_space : ∀ ct : CryptoType, ' ' ∉ cryptoName ct := by decide

theorem cryptoName_injective : ∀ a b : CryptoType, cryptoName a = cryptoName b → a = b := by
  decide

theorem keyInfo_pair_inj (a b : CryptoType) (m n : Nat)
    (h : keyInfo (cryptoName a) m = keyInfo (cryptoName b) n) : a = b ∧ m = n := by
  unfold keyInfo at h
  obtain ⟨h1, h2⟩ :=
    append_space_inj _ _ _ _ (cryptoName_no_space a) (cryptoName_no_space b) h
  exact ⟨cryptoName_injective a b h1, natChars_inj m n (append_cancel_suffix h2)⟩

/-- The weak-key label of one finding against a classification, if any
(src/canadian_compliance.rs weak-key tracking, as an Option). -/
def weakInfo (cl : SecurityClassification) (v : Vulnerability) : Option (List Char) :=
  match v.key_size with
  | some ks =>
    if validate_key_size v.crypto_type ks cl then none
    else some (keyInfo (cryptoName v.crypto_type) ks)
  | none => none

/-- The weak-key (primitive, size) pair of one finding against a
classification, if any: the spec's notion of a weak key size instance. -/
def weakPair (cl : SecurityClassification) (v : Vulnerability) : Option (CryptoType × Nat) :=
  match v.key_size with
  | some ks =>
    if validate_key_size v.crypto_type ks cl then none else some (v.crypto_type, ks)
  | none => none

/-- The Framework-B penalty formula as the spec words it: 100, minus 40 per
distinct prohibited primitive, 20 per distinct deprecated primitive, 15 per
distinct weak (primitive, size) pair, 10 per distinct quantum-vulnerable
primitive family among the findings, saturating at 0; 100 with no findings. -/
def specFrameworkB (r : AuditResult) (cl : SecurityClassification) : Nat :=
  if r.vulnerabilities = [] then 100
  else
    100 - (40 * ((r.vulnerabilities.filter (fun v => is_cccs_prohibited v.crypto_type)).map
            (fun v => v.crypto_type)).dedup.length
        + 20 * ((r.vulnerabilities.filter (fun v => is_cccs_deprecated v.crypto_type)).map
            (fun v => v.crypto_type)).dedup.length
        + 15 * (r.vulnerabilities.filterMap (weakPair cl)).dedup.length
        + 10 * ((r.vulnerabilities.filter (fun v => isQuantumVulnerableType v.crypto_type)).map
            (fun v => v.crypto_type)).dedup.length)

theorem proh_dep_exclusive :
    ∀ ct : CryptoType, ¬(is_cccs_prohibited ct = true ∧ is_cccs_deprecated ct = true) := by
  decide

theorem canadianStep_cccsProh (cl : SecurityClassification) (st : CanLists)
    (v : Vulnerability) :
    (canadianStep cl st v).cccsProh =
      if is_cccs_prohibited v.crypto_type then pushNew st.cccsProh (cryptoName v.crypto_type)
      else st.cccsProh := by
  unfold canadianStep pushNew
  by_cases hp : is_cccs_prohibited v.crypto_type = true
  · have hd : is_cccs_deprecated v.crypto_type = false := by
      rcases hdd : is_cccs_deprecated v.crypto_type with _ | _
      · rfl
      · exact absurd ⟨hp, hdd⟩ (proh_dep_exclusive v.crypto_type)
    by_cases hm : cryptoName v.crypto_type ∈ st.cccsProh <;> simp [hp, hd, hm]
  · have hp2 : is_cccs_prohibited v.crypto_type = false := by
      rcases hpp : is_cccs_prohibited v.crypto_type with _ | _
      · rfl
      · exact absurd hpp hp
    simp only [hp2, Bool.false_and, if_neg Bool.false_ne_true, if_neg]
    split <;> rfl

theorem canadianStep_cccsDep (cl : SecurityClassification) (st : CanLists)
    (v : Vulnerability) :
    (canadianStep cl st v).cccsDep =
      if is_cccs_deprecated v.crypto_type then pushNew st.cccsDep (cryptoName v.crypto_type)
      else st.cccsDep := by
  unfold canadianStep pushNew
  by_cases hd : is_cccs_deprecated v.crypto_type = true
  · have hp : is_cccs_prohibited v.crypto_type = false := by
      rcases hpp : is_cccs_prohibited v.crypto_type with _ | _
      · rfl
      · exact absurd ⟨hpp, hd⟩ (proh_dep_exclusive v.crypto_type)
    by_cases hm : cryptoName v.crypto_type ∈ st.cccsDep <;> simp [hd, hp, hm]
  · have hd2 : is_cccs_deprecated v.crypto_type = false := by
      rcases hdd : is_cccs_deprecated v.crypto_type with _ | _
      · rfl
      · exact absurd hdd hd
    simp only [hd2, Bool.false_and]
    split <;> simp

theorem canadianStep_weak (cl : SecurityClassification) (st : CanLists)
    (v : Vulnerability) :
    (canadianStep cl st v).weak =
      match weakInfo cl v with
      | some s => pushNew st.weak s
      | none => st.weak := by
  unfold canadianStep weakInfo
  cases hks : v.key_size with
  | none => rfl
  | some ks => by_cases hval : validate_key_size v.crypto_type ks cl <;> simp [hval]

theorem canadian_fold_cccsProh (cl : SecurityClassification) (vs : List Vulnerability) :
    ∀ st : CanLists,
      (vs.foldl (canadianStep cl) st).cccsProh =
        ((vs.filter (fun v => is_cccs_prohibited v.crypto_type)).map
            (fun v => cryptoName v.crypto_type)).foldl pushNew st.cccsProh := by
  induction vs with
  | nil => intro st; rfl
  | cons v vs ih =>
    intro st
    rw [List.foldl_cons, ih, List.filter_cons]
    cases hp : is_cccs_prohibited v.crypto_type with
    | false => simp only [Bool.false_eq_true, if_neg, canadianStep_cccsProh, hp]; rfl
    | true =>
      simp only [if_pos, List.map_cons, List.foldl_cons, canadianStep_cccsProh, hp, if_true]

theorem canadian_fold_cccsDep (cl : SecurityClassification) (vs : List Vulnerability) :
    ∀ st : CanLists,
      (vs.foldl (canadianStep cl) st).cccsDep =
        ((vs.filter (fun v => is_cccs_deprecated v.crypto_type)).map
            (fun v => cryptoName v.crypto_type)).foldl pushNew st.cccsDep := by
  induction vs with
  | nil => intro st; rfl
  | cons v vs ih =>
    intro st
    rw [List.foldl_cons, ih, List.filter_cons]
    cases hd : is_cccs_deprecated v.crypto_type with
    | false => simp only [Bool.false_eq_true, if_neg, canadianStep_cccsDep, hd]; rfl
    | true =>
      simp only [if_pos, List.map_cons, List.foldl_cons, canadianStep_cccsDep, hd, if_true]

theorem canadian_fold_weak (cl : SecurityClassification) (vs : List Vulnerability) :
    ∀ st : CanLists,
      (vs.foldl (canadianStep cl) st).weak =
        (vs.filterMap (weakInfo cl)).foldl pushNew st.weak := by
  induction vs with
  | nil => intro st; rfl
  | cons v vs ih =>
    intro st
    rw [List.foldl_cons, ih, List.filterMap_cons]
    cases hw : weakInfo cl v with
    | none => rw [canadianStep_weak, hw]
    | some s => rw [canadianStep_weak, hw, List.foldl_cons]

theorem prohList_length (cl : SecurityClassification) (vs : List Vulnerability) :
    (vs.foldl (canadianStep cl) ⟨[], [], [], [], []⟩).cccsProh.length =
      ((vs.filter (fun v => is_cccs_prohibited v.crypto_type)).map
        (fun v => v.crypto_type)).dedup.length := by
  rw [canadian_fold_cccsProh]
  show (((vs.filter (fun v => is_cccs_prohibited v.crypto_type)).map
    (fun v => cryptoName v.crypto_type)).foldl pushNew []).length = _
  rw [foldl_pushNew_length]
  rw [show (vs.filter (fun v => is_cccs_prohibited v.crypto_type)).map
        (fun v => cryptoName v.crypto_type)
      = ((vs.filter (fun v => is_cccs_prohibited v.crypto_type)).map
        (fun v => v.crypto_type)).map cryptoName from by rw [List.map_map]; rfl]
  exact dedup_length_map_inj cryptoName cryptoName_injective _

theorem depList_length (cl : SecurityClassification) (vs : List Vulnerability) :
    (vs.foldl (canadianStep cl) ⟨[], [], [], [], []⟩).cccsDep.length =
      ((vs.filter (fun v => is_cccs_deprecated v.crypto_type)).map
        (fun v => v.crypto_type)).dedup.length := by
  rw [canadian_fold_cccsDep]
  show (((vs.filter (fun v => is_cccs_deprecated v.crypto_type)).map
    (fun v => cryptoName v.crypto_type)).foldl pushNew []).length = _
  rw [foldl_pushNew_length]
  rw [show (vs.filter (fun v => is_cccs_deprecated v.crypto_type)).map
        (fun v => cryptoName v.crypto_type)
      = ((vs.filter (fun v => is_cccs_deprecated v.crypto_type)).map
        (fun v => v.crypto_type)).map cryptoName from by rw [List.map_map]; rfl]
  exact dedup_length_map_inj cryptoName cryptoName_injective _

theorem weakList_length (cl : SecurityClassification) (vs : List Vulnerability) :
    (vs.foldl (canadianStep cl) ⟨[], [], [], [], []⟩).weak.length =
      (vs.filterMap (weakPair cl)).dedup.length := by
  rw [canadian_fold_weak]
  show ((vs.filterMap (weakInfo cl)).foldl pushNew []).length = _
  rw [foldl_pushNew_length]
  have hmap : vs.filterMap (weakInfo cl)
      = (vs.filterMap (weakPair cl)).map (fun p => keyInfo (cryptoName p.1) p.2) := by
    rw [List.map_filterMap]
    have hfg : (fun v => (weakPair cl v).map (fun p => keyInfo (cryptoName p.1) p.2))
        = weakInfo cl := by
      funext v
      unfold weakPair weakInfo
      cases v.key_size with
      | none => rfl
      | some ks => by_cases hval : validate_key_size v.crypto_type ks cl <;> simp [hval]
    rw [hfg]
  rw [hmap]
  refine dedup_length_map_inj _ ?_ _
  intro a b hab
  obtain ⟨h1, h2⟩ := keyInfo_pair_inj a.1 b.1 a.2 b.2 hab
  obtain ⟨a1, a2⟩ := a
  obtain ⟨b1, b2⟩ := b
  simp only at h1 h2
  rw [h1, h2]

theorem quantum_names_length (vs : List Vulnerability) :
    ((vs.filter (fun v => isQuantumVulnerableType v.crypto_type)).map
      (fun v => cryptoName v.crypto_type)).dedup.length =
      ((vs.filter (fun v => isQuantumVulnerableType v.crypto_type)).map
        (fun v => v.crypto_type)).dedup.length := by
  rw [show (vs.filter (fun v => isQuantumVulnerableType v.crypto_type)).map
        (fun v => cryptoName v.crypto_type)
      = ((vs.filter (fun v => isQuantumVulnerableType v.crypto_type)).map
        (fun v => v.crypto_type)).map cryptoName from by rw [List.map_map]; rfl]
  exact dedup_length_map_inj cryptoName cryptoName_injective _

/-- Claim C5: the Framework-B (Canadian) compliance score of the generated
summary is 100 minus 40 per distinct prohibited primitive, 20 per distinct
deprecated primitive, 15 per distinct weak (primitive, size) pair failing the
requested classification, and 10 per distinct quantum-vulnerable family among
the findings, saturating at 0; it is 100 with no findings, and exactly 60 for
a result whose findings are all of one prohibited hash algorithm (MD5 or
SHA-1).  The hypothesis ties the stats counter to the findings list, which
holds for every pipeline-produced result. -/
theorem canadian_compliance_score_formula (r : AuditResult) (cl : SecurityClassification)
    (h : r.stats.total_vulnerabilities = r.vulnerabilities.length) :
    (generate_canadian_summary r cl).compliance_score = specFrameworkB r cl
    ∧ (r.vulnerabilities = [] → (generate_canadian_summary r cl).compliance_score = 100)
    ∧ (∀ ct : CryptoType, ct = CryptoType.Md5 ∨ ct = CryptoType.Sha1 →
        r.vulnerabilities ≠ [] → (∀ v ∈ r.vulnerabilities, v.crypto_type = ct) →
        (generate_canadian_summary r cl).compliance_score = 60) := by
  have hscore : (generate_canadian_summary r cl).compliance_score
      = calculate_canadian_compliance_score r
          ((r.vulnerabilities.foldl (canadianStep cl) ⟨[], [], [], [], []⟩).cccsProh)
          ((r.vulnerabilities.foldl (canadianStep cl) ⟨[], [], [], [], []⟩).cccsDep)
          ((r.vulnerabilities.foldl (canadianStep cl) ⟨[], [], [], [], []⟩).weak) := rfl
  have hmain : (generate_canadian_summary r cl).compliance_score = specFrameworkB r cl := by
    rw [hscore]
    unfold calculate_canadian_compliance_score specFrameworkB
    by_cases hv : r.vulnerabilities = []
    · rw [if_pos hv, if_pos (by rw [h, hv]; rfl)]
    · have ht : ¬(r.stats.total_vulnerabilities = 0) := by
        rw [h]
        simpa using hv
      rw [if_neg ht, if_neg hv]
      rw [prohList_length, depList_length, weakList_length, quantum_names_length]
      dsimp only
      omega
  refine ⟨hmain, ?_, ?_⟩
  · intro hv
    rw [hmain]
    unfold specFrameworkB
    rw [if_pos hv]
  · intro ct hct hne hall
    rw [hmain]
    unfold specFrameworkB
    rw [if_neg hne]
    have hfp : r.vulnerabilities.filter (fun v => is_cccs_prohibited v.crypto_type)
        = r.vulnerabilities := by
      rw [List.filter_eq_self]
      intro v hv
      rw [hall v hv]
      rcases hct with rfl | rfl <;> rfl
    have hfd : r.vulnerabilities.filter (fun v => is_cccs_deprecated v.crypto_type) = [] := by
      rw [List.filter_eq_nil_iff]
      intro v hv
      rw [hall v hv]
      rcases hct with rfl | rfl <;> simp [is_cccs_deprecated, get_cccs_status]
    have hfq : r.vulnerabilities.filter (fun v => isQuantumVulnerableType v.crypto_type)
        = [] := by
      rw [List.filter_eq_nil_iff]
      intro v hv
      rw [hall v hv]
      rcases hct with rfl | rfl <;> simp [isQuantumVulnerableType]
    have hfw : r.vulnerabilities.filterMap (weakPair cl) = [] := by
      rw [List.filterMap_eq_nil_iff]
      intro v hv
      unfold weakPair
      rw [hall v hv]
      rcases hct with rfl | rfl <;> (cases v.key_size <;> simp [validate_key_size])
    rw [hfp, hfd, hfq, hfw]
    have hone : (r.vulnerabilities.map (fun v => v.crypto_type)).dedup.length = 1 := by
      refine dedup_length_const _ ct ?_ ?_
      · simpa using hne
      · intro x hx
        obtain ⟨v, hv, hvx⟩ := List.mem_map.mp hx
        rw [← hvx]
        exact hall v hv
    rw [hone]
    simp

/-- Witness for claim C5: a result holding one MD5 finding scores exactly 60. -/
theorem canadian_compliance_score_formula_witness :
    (generate_canadian_summary ((AuditResult.new Language.Python 5).add_vulnerability
        { crypto_type := CryptoType.Md5, severity := Severity.Critical, risk_score := 100,
          line := 1, column := 0, context := [], message := [], recommendation := [],
          key_size := none })
      SecurityClassification.ProtectedB).compliance_score = 60 :=
  (canadian_compliance_score_formula
      ((AuditResult.new Language.Python 5).add_vulnerability
        { crypto_type := CryptoType.Md5, severity := Severity.Critical, risk_score := 100,
          line := 1, column := 0, context := [], message := [], recommendation := [],
          key_size := none })
      SecurityClassification.ProtectedB (by decide)).2.2
    CryptoType.Md5 (Or.inl rfl) (by decide) (by decide)

end PQC
